import Mathlib

/-!
Verification of the RAG pipeline of the Asiter backend
(`backend/app/services/rag.py`, `backend/app/services/embeddings.py`,
`backend/app/db/chroma.py`, `backend/app/db/models.py`).

Python strings are modelled as `List Char`; Python's `json` values as the
inductive type `Json` below (JSON numbers are modelled as integers: the
claims under verification never involve fractional literals).  Mappings
(`dict`) are association lists in insertion order, matching CPython
dictionary semantics.  Fallible Python code (raising exceptions) is
modelled with `Option`/`Except`.
-/

namespace Asiter

/-- Convert a Lean string literal to the `List Char` representation used
throughout this development. -/
def S (s : String) : List Char := s.data

/-- The whitespace characters stripped by Python's `str.strip()`. -/
def isPySpace (c : Char) : Bool :=
  c = ' ' || c = '\t' || c = '\n' || c = '\x0d' || c = '\x0b' || c = '\x0c'

/-- Python `str.strip()`: remove leading and trailing whitespace. -/
def pyStrip (cs : List Char) : List Char :=
  ((cs.dropWhile isPySpace).reverse.dropWhile isPySpace).reverse

/-- The JSON value model: Python `json.loads` results.  Numbers are
modelled as integers (see the module comment). -/
inductive Json where
  | null : Json
  | bool (b : Bool) : Json
  | num (n : Int) : Json
  | str (s : List Char) : Json
  | arr (elems : List Json) : Json
  | obj (entries : List (List Char × Json)) : Json

/-- Python truthiness (`if value:`) on JSON values: `None`, `False`, `0`,
`""`, `[]` and `{}` are falsy. -/
def Json.truthy : Json → Bool
  | .null => false
  | .bool b => b
  | .num n => n ≠ 0
  | .str s => !s.isEmpty
  | .arr xs => !xs.isEmpty
  | .obj kvs => !kvs.isEmpty

/-- Whether a JSON value is an object (a Python `dict`). -/
def Json.isObj : Json → Bool
  | .obj _ => true
  | _ => false

/-- The decimal digit characters, used by the integer serializer. -/
def digitChar (n : Nat) : Char :=
  (['0', '1', '2', '3', '4', '5', '6', '7', '8', '9'].getD n '0')

/-- Lowercase hexadecimal digit characters, as produced by Python's
`json` encoder for `\u00xx` escapes. -/
def hexDigitChar (n : Nat) : Char :=
  if n < 10 then digitChar n
  else (['a', 'b', 'c', 'd', 'e', 'f'].getD (n - 10) '0')

/-- Decimal digits of a natural number, most significant first
(Python `str(n)` for `n ≥ 0`). -/
def natToChars (n : Nat) : List Char :=
  if _h : n < 10 then [digitChar n]
  else natToChars (n / 10) ++ [digitChar (n % 10)]
  decreasing_by exact Nat.div_lt_self (by omega) (by omega)

/-- Python `str(n)` / `json.dumps(n)` for an integer. -/
def intToChars (n : Int) : List Char :=
  if n < 0 then '-' :: natToChars n.natAbs else natToChars n.natAbs

/-- How Python's `json` encoder (with `ensure_ascii=False`) renders one
character inside a string literal. -/
def escapeChar (c : Char) : List Char :=
  if c = '"' then ['\\', '"']
  else if c = '\\' then ['\\', '\\']
  else if c = '\n' then ['\\', 'n']
  else if c = '\t' then ['\\', 't']
  else if c = '\x0d' then ['\\', 'r']
  else if c = '\x08' then ['\\', 'b']
  else if c = '\x0c' then ['\\', 'f']
  else if c.toNat < 32 then
    ['\\', 'u', '0', '0', hexDigitChar (c.toNat / 16), hexDigitChar (c.toNat % 16)]
  else [c]

/-- JSON string literal serialization (quotes plus escaped body). -/
def serStrLit (s : List Char) : List Char :=
  '"' :: (s.map escapeChar).flatten ++ ['"']

mutual

/-- `json.dumps(v, ensure_ascii=False)`: the canonical serialization
with `", "` and `": "` separators (Python's defaults). -/
def Json.ser : Json → List Char
  | .null => S "null"
  | .bool true => S "true"
  | .bool false => S "false"
  | .num n => intToChars n
  | .str s => serStrLit s
  | .arr xs => '[' :: serElems xs ++ [']']
  | .obj kvs => '\x7b' :: serEntries kvs ++ ['\x7d']

/-- Serialize the elements of an array, `", "`-separated. -/
def serElems : List Json → List Char
  | [] => []
  | x :: xs => Json.ser x ++ serSepElems xs

/-- The `", "`-prefixed continuation of an array's element list. -/
def serSepElems : List Json → List Char
  | [] => []
  | x :: xs => ',' :: ' ' :: (Json.ser x ++ serSepElems xs)

/-- Serialize the entries of an object, `", "`-separated. -/
def serEntries : List (List Char × Json) → List Char
  | [] => []
  | (k, v) :: kvs => serStrLit k ++ ':' :: ' ' :: (Json.ser v ++ serSepEntries kvs)

/-- The `", "`-prefixed continuation of an object's entry list. -/
def serSepEntries : List (List Char × Json) → List Char
  | [] => []
  | (k, v) :: kvs =>
      ',' :: ' ' :: (serStrLit k ++ ':' :: ' ' :: (Json.ser v ++ serSepEntries kvs))

end

/-! ### A JSON parser modelling Python `json.loads` (strict mode)

`json.loads` skips JSON whitespace, parses one value, skips whitespace
again and raises `JSONDecodeError` unless the input is exhausted.  The
parser below is fuel-indexed; `jsonLoads` supplies fuel that provably
suffices for every serialized value. Fractional and exponent number
forms are outside the model (see the module comment): on them the model
parser fails where Python would produce a float. -/

/-- The whitespace characters skipped between JSON tokens. -/
def isJsonWs (c : Char) : Bool :=
  c = ' ' || c = '\t' || c = '\n' || c = '\x0d'

/-- Skip JSON whitespace. -/
def skipWs : List Char → List Char
  | [] => []
  | c :: cs => if isJsonWs c then skipWs cs else c :: cs

/-- Value of a hexadecimal digit character. -/
def hexVal (c : Char) : Option Nat :=
  if 48 ≤ c.toNat ∧ c.toNat ≤ 57 then some (c.toNat - 48)
  else if 97 ≤ c.toNat ∧ c.toNat ≤ 102 then some (c.toNat - 87)
  else if 65 ≤ c.toNat ∧ c.toNat ≤ 70 then some (c.toNat - 55)
  else none

/-- Decode a single-character JSON escape (everything except `\uXXXX`). -/
def escDecode (e : Char) : Option Char :=
  if e = '"' then some '"'
  else if e = '\\' then some '\\'
  else if e = '/' then some '/'
  else if e = 'b' then some '\x08'
  else if e = 'f' then some '\x0c'
  else if e = 'n' then some '\n'
  else if e = 'r' then some '\x0d'
  else if e = 't' then some '\t'
  else none

/-- Parse the body of a JSON string literal after the opening quote,
returning the decoded characters and the input after the closing quote.
Unescaped control characters are rejected, as in Python strict mode. -/
def parseStringBody : List Char → Option (List Char × List Char)
  | [] => none
  | c :: rest =>
    if c = '"' then some ([], rest)
    else if c = '\\' then
      match rest with
      | [] => none
      | e :: rest2 =>
        if e = 'u' then
          match rest2 with
          | h1 :: h2 :: h3 :: h4 :: rest3 =>
            match hexVal h1, hexVal h2, hexVal h3, hexVal h4 with
            | some a, some b, some c2, some d =>
              match parseStringBody rest3 with
              | some (s, r) => some (Char.ofNat (((a * 16 + b) * 16 + c2) * 16 + d) :: s, r)
              | none => none
            | _, _, _, _ => none
          | _ => none
        else
          match escDecode e with
          | some c2 =>
            match parseStringBody rest2 with
            | some (s, r) => some (c2 :: s, r)
            | none => none
          | none => none
    else if c.toNat < 32 then none
    else
      match parseStringBody rest with
      | some (s, r) => some (c :: s, r)
      | none => none
  termination_by cs => cs.length
  decreasing_by all_goals first
  | (simp_all [List.length]; omega)
  | simp_all [List.length]

/-- Decimal digit test (code points 48-57). -/
def isDigitChar (c : Char) : Bool := 48 ≤ c.toNat && c.toNat ≤ 57

/-- Split off the longest digit prefix. -/
def takeDigits : List Char → (List Char × List Char)
  | [] => ([], [])
  | c :: cs =>
    if isDigitChar c then (c :: (takeDigits cs).1, (takeDigits cs).2)
    else ([], c :: cs)

/-- Numeric value of a digit string (most significant first). -/
def digitsToNat (ds : List Char) : Nat :=
  ds.foldl (fun a c => a * 10 + (c.toNat - 48)) 0

/-- Characters that may not directly follow a parsed integer in the
model: a following fraction or exponent would make Python produce a
float, which is outside the model. -/
def isNumCont (c : Char) : Bool :=
  isDigitChar c || c = '.' || c = 'e' || c = 'E'

/-- Parse the unsigned integer part of a JSON number.  Per the JSON
grammar the part is `0` or a nonzero digit followed by digits; a
following `.`/`e`/`E` is rejected by the model (float forms). -/
def parseIntPart : List Char → Option (Nat × List Char)
  | [] => none
  | c :: cs =>
    if c = '0' then
      match cs with
      | c2 :: _ => if c2 = '.' ∨ c2 = 'e' ∨ c2 = 'E' then none else some (0, cs)
      | [] => some (0, [])
    else if isDigitChar c then
      match (takeDigits cs).2 with
      | c2 :: _ =>
        if c2 = '.' ∨ c2 = 'e' ∨ c2 = 'E' then none
        else some (digitsToNat (c :: (takeDigits cs).1), (takeDigits cs).2)
      | [] => some (digitsToNat (c :: (takeDigits cs).1), [])
    else none

/-- Parse a JSON number (integer forms only, see above). -/
def parseNumber (cs : List Char) : Option (Json × List Char) :=
  match cs with
  | [] => none
  | c :: rest =>
    if c = '-' then
      match parseIntPart rest with
      | some (n, r) => some (.num (-(n : Int)), r)
      | none => none
    else
      match parseIntPart (c :: rest) with
      | some (n, r) => some (.num (n : Int), r)
      | none => none

/-- Consume an expected literal keyword tail (`ull`, `rue`, `alse`). -/
def expectLit (lit cs : List Char) : Option (List Char) :=
  if lit.isPrefixOf cs then some (cs.drop lit.length) else none

mutual

/-- Parse one JSON value (after skipping leading whitespace). -/
def parseValue : Nat → List Char → Option (Json × List Char)
  | 0, _ => none
  | Nat.succ n, cs =>
    match skipWs cs with
    | [] => none
    | c :: rest =>
      if c = '"' then
        match parseStringBody rest with
        | some (s, r) => some (.str s, r)
        | none => none
      else if c = '[' then
        match parseArrayBody n rest with
        | some (xs, r) => some (.arr xs, r)
        | none => none
      else if c = '\x7b' then
        match parseObjBody n rest with
        | some (kvs, r) => some (.obj kvs, r)
        | none => none
      else if c = 'n' then
        match expectLit ['u', 'l', 'l'] rest with
        | some r => some (.null, r)
        | none => none
      else if c = 't' then
        match expectLit ['r', 'u', 'e'] rest with
        | some r => some (.bool true, r)
        | none => none
      else if c = 'f' then
        match expectLit ['a', 'l', 's', 'e'] rest with
        | some r => some (.bool false, r)
        | none => none
      else parseNumber (c :: rest)

/-- Parse the inside of a JSON array after `[`. -/
def parseArrayBody : Nat → List Char → Option (List Json × List Char)
  | 0, _ => none
  | Nat.succ n, cs =>
    match skipWs cs with
    | [] => none
    | c :: rest =>
      if c = ']' then some ([], rest)
      else
        match parseValue n (c :: rest) with
        | some (v, r) =>
          match parseArrayTail n r with
          | some (vs, r2) => some (v :: vs, r2)
          | none => none
        | none => none

/-- Parse an array continuation: `, value`* followed by `]`. -/
def parseArrayTail : Nat → List Char → Option (List Json × List Char)
  | 0, _ => none
  | Nat.succ n, cs =>
    match skipWs cs with
    | [] => none
    | c :: rest =>
      if c = ']' then some ([], rest)
      else if c = ',' then
        match parseValue n rest with
        | some (v, r) =>
          match parseArrayTail n r with
          | some (vs, r2) => some (v :: vs, r2)
          | none => none
        | none => none
      else none

/-- Parse the inside of a JSON object after `{`. -/
def parseObjBody : Nat → List Char → Option (List (List Char × Json) × List Char)
  | 0, _ => none
  | Nat.succ n, cs =>
    match skipWs cs with
    | [] => none
    | c :: rest =>
      if c = '\x7d' then some ([], rest)
      else if c = '"' then
        match parseStringBody rest with
        | some (k, r) =>
          match skipWs r with
          | ':' :: r2 =>
            match parseValue n r2 with
            | some (v, r3) =>
              match parseObjTail n r3 with
              | some (kvs, r4) => some ((k, v) :: kvs, r4)
              | none => none
            | none => none
          | _ => none
        | none => none
      else none

/-- Parse an object continuation: `, "key": value`* followed by `}`. -/
def parseObjTail : Nat → List Char → Option (List (List Char × Json) × List Char)
  | 0, _ => none
  | Nat.succ n, cs =>
    match skipWs cs with
    | [] => none
    | c :: rest =>
      if c = '\x7d' then some ([], rest)
      else if c = ',' then
        match skipWs rest with
        | '"' :: r =>
          match parseStringBody r with
          | some (k, r2) =>
            match skipWs r2 with
            | ':' :: r3 =>
              match parseValue n r3 with
              | some (v, r4) =>
                match parseObjTail n r4 with
                | some (kvs, r5) => some ((k, v) :: kvs, r5)
                | none => none
              | none => none
            | _ => none
          | none => none
        | _ => none
      else none

end

/-- `json.loads`: skip whitespace, parse one value, require exhaustion.
`none` models a raised `JSONDecodeError`. -/
def jsonLoads (cs : List Char) : Option Json :=
  match parseValue (2 * cs.length + 2) cs with
  | some (v, rest) => if skipWs rest = [] then some v else none
  | none => none

/-! ### `RAGService._parse_json_response` (rag.py lines 290-312) -/

/-- The span matched by `re.search(r'\x7b[\s\S]*\x7d', content)`: from
the first `{` to the last `}`, or `none` when no such span exists. -/
def braceSpan (cs : List Char) : Option (List Char) :=
  let pre := cs.dropWhile (fun c => c ≠ '\x7b')
  let span := (pre.reverse.dropWhile (fun c => c ≠ '\x7d')).reverse
  if span.isEmpty then none else some span

/-- The structured failure payload returned when every parsing stage
fails: `{"error": ..., "raw": content[:500]}`. -/
def errorPayload (content : List Char) : Json :=
  .obj [(S "error", .str (S "No se pudo parsear la respuesta")),
        (S "raw", .str (content.take 500))]

/-- The preprocessing of `RAGService._parse_json_response`: strip,
remove a leading ```` ```json ```` or ```` ``` ```` fence and a
trailing fence, then strip again. -/
def preprocess (content0 : List Char) : List Char :=
  let c1 := pyStrip content0
  let c2 := if (S "```json").isPrefixOf c1 then c1.drop 7 else c1
  let c3 := if (S "```").isPrefixOf c2 then c2.drop 3 else c2
  let c4 := if (S "```").isSuffixOf c3 then c3.take (c3.length - 3) else c3
  pyStrip c4

/-- `RAGService._parse_json_response`: preprocess, then try
`json.loads`; on failure try the first-`{`-to-last-`}` span; on failure
return the error payload.  Python declares a `dict` return type but
returns whatever `json.loads` produced. -/
def parseJsonResponse (content0 : List Char) : Json :=
  let content := preprocess content0
  match jsonLoads content with
  | some v => v
  | none =>
    match braceSpan content with
    | some span =>
      match jsonLoads span with
      | some v => v
      | none => errorPayload content
    | none => errorPayload content

/-! ### Round-trip of the serializer through the parser -/

/-- A suffix may directly follow a serialized number: empty, or headed
by a character that does not extend the number. -/
def restOk : List Char → Bool
  | [] => true
  | c :: _ => !isNumCont c

theorem skipWs_cons_of_not_ws {c : Char} (cs : List Char) (h : isJsonWs c = false) :
    skipWs (c :: cs) = c :: cs := by
  simp [skipWs, h]

theorem digitChar_toNat {n : Nat} (h : n < 10) : (digitChar n).toNat = 48 + n := by
  interval_cases n <;> rfl

theorem isDigitChar_digitChar {n : Nat} (h : n < 10) : isDigitChar (digitChar n) = true := by
  interval_cases n <;> rfl

theorem digitChar_eq_zero_iff {n : Nat} (h : n < 10) : digitChar n = '0' ↔ n = 0 := by
  interval_cases n <;> simp [digitChar]

theorem natToChars_ne_nil (n : Nat) : natToChars n ≠ [] := by
  rw [natToChars]
  split <;> simp

theorem mem_natToChars_isDigit (n : Nat) : ∀ c ∈ natToChars n, isDigitChar c = true := by
  induction n using Nat.strong_induction_on with
  | _ n ih =>
    rw [natToChars]
    split
    · intro c hc
      simp at hc
      subst hc
      exact isDigitChar_digitChar (by omega)
    · intro c hc
      rcases List.mem_append.mp hc with h | h
      · exact ih (n / 10) (Nat.div_lt_self (by omega) (by omega)) c h
      · simp at h
        subst h
        exact isDigitChar_digitChar (Nat.mod_lt _ (by omega))

theorem digitsToNat_append_single (ds : List Char) (c : Char) :
    digitsToNat (ds ++ [c]) = digitsToNat ds * 10 + (c.toNat - 48) := by
  simp [digitsToNat, List.foldl_append]

theorem digitsToNat_natToChars (n : Nat) : digitsToNat (natToChars n) = n := by
  induction n using Nat.strong_induction_on with
  | _ n ih =>
    rw [natToChars]
    split
    · next h =>
      simp [digitsToNat, digitChar_toNat h]
    · next h =>
      rw [digitsToNat_append_single,
        ih (n / 10) (Nat.div_lt_self (by omega) (by omega)),
        digitChar_toNat (Nat.mod_lt _ (by omega))]
      omega

/-- The head of `natToChars n` is a digit, and is not `'0'` unless
`n = 0`. -/
theorem natToChars_head (n : Nat) :
    ∃ c t, natToChars n = c :: t ∧ isDigitChar c = true ∧ (n ≠ 0 → c ≠ '0') := by
  induction n using Nat.strong_induction_on with
  | _ n ih =>
    rw [natToChars]
    split
    · next h =>
      exact ⟨digitChar n, [], rfl, isDigitChar_digitChar h, by
        intro hn
        simpa [digitChar_eq_zero_iff h] using hn⟩
    · next h =>
      obtain ⟨c, t, heq, hdig, hz⟩ := ih (n / 10) (Nat.div_lt_self (by omega) (by omega))
      exact ⟨c, t ++ [digitChar (n % 10)], by rw [heq]; simp, hdig,
        fun _ => hz (by omega)⟩

/-- Unpack a `restOk` head into the individual character facts. -/
theorem restOk_cons {c : Char} {cs : List Char} (h : restOk (c :: cs) = true) :
    isDigitChar c = false ∧ c ≠ '.' ∧ c ≠ 'e' ∧ c ≠ 'E' := by
  simp [restOk, isNumCont] at h
  tauto

/-- `takeDigits` splits exactly at a non-digit boundary. -/
theorem takeDigits_append (ds rest : List Char)
    (hd : ∀ c ∈ ds, isDigitChar c = true)
    (hr : restOk rest = true) : takeDigits (ds ++ rest) = (ds, rest) := by
  induction ds with
  | nil =>
    cases rest with
    | nil => rfl
    | cons c cs =>
      simp [takeDigits, (restOk_cons hr).1]
  | cons d ds ihd =>
    have hdd : isDigitChar d = true := hd d (by simp)
    have ih := ihd (fun c hc => hd c (by simp [hc]))
    simp [takeDigits, hdd, ih]

theorem parseIntPart_roundtrip (n : Nat) (rest : List Char) (h : restOk rest = true) :
    parseIntPart (natToChars n ++ rest) = some (n, rest) := by
  obtain ⟨c, t, heq, hdig, hz⟩ := natToChars_head n
  by_cases hn : n = 0
  · subst hn
    have h0 : natToChars 0 = ['0'] := by rw [natToChars]; decide
    rw [h0]
    cases rest with
    | nil => rfl
    | cons c2 cs =>
      obtain ⟨_, h1, h2, h3⟩ := restOk_cons h
      simp [parseIntPart, h1, h2, h3]
  · rw [heq]
    have hc0 : c ≠ '0' := hz hn
    have htd : takeDigits (t ++ rest) = (t, rest) :=
      takeDigits_append t rest
        (fun x hx => mem_natToChars_isDigit n x (by rw [heq]; simp [hx])) h
    have hval : digitsToNat (c :: t) = n := by
      rw [← heq]; exact digitsToNat_natToChars n
    cases rest with
    | nil =>
      simp only [List.append_nil] at htd ⊢
      simp [parseIntPart, hc0, hdig, htd, hval]
    | cons c2 cs =>
      obtain ⟨_, h1, h2, h3⟩ := restOk_cons h
      simp [parseIntPart, hc0, hdig, htd, hval, h1, h2, h3]

theorem isDigitChar_ne_minus {c : Char} (h : isDigitChar c = true) : c ≠ '-' := by
  rintro rfl
  simp [isDigitChar] at h

theorem parseNumber_roundtrip (n : Int) (rest : List Char) (h : restOk rest = true) :
    parseNumber (intToChars n ++ rest) = some (.num n, rest) := by
  by_cases hn : n < 0
  · have habs : (-(n.natAbs : Int)) = n := by omega
    have he : intToChars n = '-' :: natToChars n.natAbs := by simp [intToChars, hn]
    have key : parseNumber (('-' :: natToChars n.natAbs) ++ rest) =
        some (.num (-(n.natAbs : Int)), rest) := by
      rw [List.cons_append]
      simp [parseNumber, parseIntPart_roundtrip n.natAbs rest h]
    rw [he, key, habs]
  · have habs : ((n.natAbs : Int)) = n := by omega
    have he : intToChars n = natToChars n.natAbs := by simp [intToChars, hn]
    obtain ⟨c, t, heq, hdig, _⟩ := natToChars_head n.natAbs
    have hcm : c ≠ '-' := isDigitChar_ne_minus hdig
    have hro : parseIntPart (natToChars n.natAbs ++ rest) = some (n.natAbs, rest) :=
      parseIntPart_roundtrip n.natAbs rest h
    rw [heq, List.cons_append] at hro
    have key : parseNumber (c :: (t ++ rest)) = some (.num (n.natAbs : Int), rest) := by
      simp [parseNumber, hcm, hro]
    rw [he, heq, List.cons_append, key, habs]

theorem hexVal_hexDigitChar {n : Nat} (h : n < 16) : hexVal (hexDigitChar n) = some n := by
  interval_cases n <;> rfl

theorem parseStringBody_roundtrip (s rest : List Char) :
    parseStringBody ((s.map escapeChar).flatten ++ '"' :: rest) = some (s, rest) := by
  induction s with
  | nil =>
    rw [parseStringBody.eq_def]
    simp
  | cons c s ih =>
    have hstep : (((c :: s).map escapeChar).flatten ++ '"' :: rest) =
        escapeChar c ++ ((s.map escapeChar).flatten ++ '"' :: rest) := by
      simp
    rw [hstep]
    by_cases h1 : c = '"'
    · subst h1; rw [escapeChar, parseStringBody.eq_def]; simp [escDecode, ih]
    · by_cases h2 : c = '\\'
      · subst h2; rw [escapeChar, parseStringBody.eq_def]; simp [escDecode, ih]
      · by_cases h3 : c = '\n'
        · subst h3; rw [escapeChar, parseStringBody.eq_def]; simp [escDecode, ih]
        · by_cases h4 : c = '\t'
          · subst h4; rw [escapeChar, parseStringBody.eq_def]; simp [escDecode, ih]
          · by_cases h5 : c = '\x0d'
            · subst h5; rw [escapeChar, parseStringBody.eq_def]; simp [escDecode, ih]
            · by_cases h6 : c = '\x08'
              · subst h6; rw [escapeChar, parseStringBody.eq_def]; simp [escDecode, ih]
              · by_cases h7 : c = '\x0c'
                · subst h7; rw [escapeChar, parseStringBody.eq_def]; simp [escDecode, ih]
                · by_cases h8 : c.toNat < 32
                  · have he : escapeChar c =
                        ['\\', 'u', '0', '0', hexDigitChar (c.toNat / 16),
                         hexDigitChar (c.toNat % 16)] := by
                      rw [escapeChar]
                      simp [h1, h2, h3, h4, h5, h6, h7, h8]
                    have hd1 : hexVal (hexDigitChar (c.toNat / 16)) = some (c.toNat / 16) :=
                      hexVal_hexDigitChar (by omega)
                    have hd2 : hexVal (hexDigitChar (c.toNat % 16)) = some (c.toNat % 16) :=
                      hexVal_hexDigitChar (by omega)
                    have hz : hexVal '0' = some 0 := by decide
                    rw [he, parseStringBody.eq_def]
                    simp [hz, hd1, hd2, ih]
                    rw [show c.toNat / 16 * 16 + c.toNat % 16 = c.toNat by omega,
                      Char.ofNat_toNat]
                  · have he : escapeChar c = [c] := by
                      rw [escapeChar]
                      simp [h1, h2, h3, h4, h5, h6, h7, h8]
                    rw [he, List.singleton_append, parseStringBody.eq_def]
                    simp [h1, h2, h8, ih]

mutual

/-- Fuel sufficient for `parseValue` on a serialized value. -/
def jsize : Json → Nat
  | .null => 1
  | .bool _ => 1
  | .num _ => 1
  | .str _ => 1
  | .arr xs => 1 + jsizeElems xs
  | .obj kvs => 1 + jsizeEntries kvs

/-- Fuel sufficient for `parseArrayBody`/`parseArrayTail` on a
serialized element list. -/
def jsizeElems : List Json → Nat
  | [] => 1
  | x :: xs => 1 + jsize x + jsizeElems xs

/-- Fuel sufficient for `parseObjBody`/`parseObjTail` on a serialized
entry list. -/
def jsizeEntries : List (List Char × Json) → Nat
  | [] => 1
  | kv :: kvs => 1 + jsize kv.2 + jsizeEntries kvs

end

theorem jsize_pos (v : Json) : 1 ≤ jsize v := by
  cases v <;> simp [jsize]

theorem jsizeElems_pos (xs : List Json) : 1 ≤ jsizeElems xs := by
  cases xs <;> simp [jsizeElems] <;> omega

theorem jsizeEntries_pos (kvs : List (List Char × Json)) : 1 ≤ jsizeEntries kvs := by
  cases kvs <;> simp [jsizeEntries] <;> omega

/-- Facts about digit characters needed to steer the value dispatcher. -/
theorem digit_char_facts {c : Char} (h : isDigitChar c = true) :
    isJsonWs c = false ∧ c ≠ '"' ∧ c ≠ '[' ∧ c ≠ '\x7b' ∧ c ≠ 'n' ∧ c ≠ 't' ∧ c ≠ 'f' ∧
      c ≠ ']' ∧ c ≠ '\x7d' ∧ c ≠ ',' := by
  refine ⟨?_, ?_, ?_, ?_, ?_, ?_, ?_, ?_, ?_, ?_⟩
  · simp only [isJsonWs]
    have h2 : 48 ≤ c.toNat ∧ c.toNat ≤ 57 := by simpa [isDigitChar] using h
    have h48 : 48 ≤ c.toNat := h2.1
    have h57 : c.toNat ≤ 57 := h2.2
    simp only [Bool.or_eq_false_iff, decide_eq_false_iff_not]
    refine ⟨⟨⟨?_, ?_⟩, ?_⟩, ?_⟩ <;> rintro rfl <;> simp_all
  all_goals rintro rfl <;> simp [isDigitChar] at h

/-- The first character of a serialized value: never whitespace, never a
closing bracket and never a comma. -/
theorem ser_head (v : Json) :
    ∃ c t, Json.ser v = c :: t ∧ isJsonWs c = false ∧ c ≠ ']' ∧ c ≠ '\x7d' ∧ c ≠ ',' := by
  cases v with
  | null => exact ⟨'n', ['u', 'l', 'l'], rfl, by decide, by decide, by decide, by decide⟩
  | bool b =>
    cases b with
    | true => exact ⟨'t', ['r', 'u', 'e'], rfl, by decide, by decide, by decide, by decide⟩
    | false =>
      exact ⟨'f', ['a', 'l', 's', 'e'], rfl, by decide, by decide, by decide, by decide⟩
  | num n =>
    by_cases hn : n < 0
    · refine ⟨'-', natToChars n.natAbs, ?_, by decide, by decide, by decide, by decide⟩
      simp [Json.ser, intToChars, hn]
    · obtain ⟨c, t, heq, hdig, _⟩ := natToChars_head n.natAbs
      obtain ⟨hws, _, _, _, _, _, _, hb1, hb2, hb3⟩ := digit_char_facts hdig
      refine ⟨c, t, ?_, hws, hb1, hb2, hb3⟩
      simp [Json.ser, intToChars, hn, heq]
  | str s =>
    exact ⟨'"', (s.map escapeChar).flatten ++ ['"'], rfl,
      by decide, by decide, by decide, by decide⟩
  | arr xs =>
    exact ⟨'[', serElems xs ++ [']'], rfl, by decide, by decide, by decide, by decide⟩
  | obj kvs =>
    exact ⟨'\x7b', serEntries kvs ++ ['\x7d'], rfl,
      by decide, by decide, by decide, by decide⟩

/-- `parseValue` ignores one leading whitespace character. -/
theorem parseValue_cons_ws {c : Char} (n : Nat) (w : List Char) (h : isJsonWs c = true) :
    parseValue n (c :: w) = parseValue n w := by
  cases n with
  | zero => rfl
  | succ m =>
    have hsk : skipWs (c :: w) = skipWs w := by simp [skipWs, h]
    rw [parseValue.eq_def]
    conv_rhs => rw [parseValue.eq_def]
    simp only [hsk]

theorem intToChars_head (n : Int) :
    ∃ c t, intToChars n = c :: t ∧ isJsonWs c = false ∧ c ≠ '"' ∧ c ≠ '[' ∧ c ≠ '\x7b' ∧
      c ≠ 'n' ∧ c ≠ 't' ∧ c ≠ 'f' := by
  by_cases hn : n < 0
  · refine ⟨'-', natToChars n.natAbs, by simp [intToChars, hn], ?_, ?_, ?_, ?_, ?_, ?_, ?_⟩ <;> decide
  · obtain ⟨c, t, heq, hdig, _⟩ := natToChars_head n.natAbs
    obtain ⟨hws, k1, k2, k3, k4, k5, k6, _, _, _⟩ := digit_char_facts hdig
    exact ⟨c, t, by simp [intToChars, hn, heq], hws, k1, k2, k3, k4, k5, k6⟩

theorem restOk_sepElems (t : List Json) (rest : List Char) :
    restOk (serSepElems t ++ ']' :: rest) = true := by
  cases t <;> simp [serSepElems, restOk] <;> decide

theorem restOk_sepEntries (t : List (List Char × Json)) (rest : List Char) :
    restOk (serSepEntries t ++ '\x7d' :: rest) = true := by
  cases t <;> simp [serSepEntries, restOk] <;> decide

theorem parse_roundtrip_strong : ∀ n : Nat,
    (∀ v rest, jsize v ≤ n → restOk rest = true →
      parseValue n (Json.ser v ++ rest) = some (v, rest)) ∧
    (∀ xs rest, jsizeElems xs ≤ n →
      parseArrayBody n (serElems xs ++ ']' :: rest) = some (xs, rest)) ∧
    (∀ xs rest, jsizeElems xs ≤ n →
      parseArrayTail n (serSepElems xs ++ ']' :: rest) = some (xs, rest)) ∧
    (∀ kvs rest, jsizeEntries kvs ≤ n →
      parseObjBody n (serEntries kvs ++ '\x7d' :: rest) = some (kvs, rest)) ∧
    (∀ kvs rest, jsizeEntries kvs ≤ n →
      parseObjTail n (serSepEntries kvs ++ '\x7d' :: rest) = some (kvs, rest)) := by
  intro n
  induction n using Nat.strong_induction_on with
  | _ n ih =>
  cases n with
  | zero =>
    refine ⟨?_, ?_, ?_, ?_, ?_⟩
    · intro v rest hsz _
      exact absurd hsz (by have := jsize_pos v; omega)
    · intro xs rest hsz
      exact absurd hsz (by have := jsizeElems_pos xs; omega)
    · intro xs rest hsz
      exact absurd hsz (by have := jsizeElems_pos xs; omega)
    · intro kvs rest hsz
      exact absurd hsz (by have := jsizeEntries_pos kvs; omega)
    · intro kvs rest hsz
      exact absurd hsz (by have := jsizeEntries_pos kvs; omega)
  | succ m =>
    obtain ⟨ihv, ihab, ihat, ihob, ihot⟩ := ih m (Nat.lt_succ_self m)
    refine ⟨?_, ?_, ?_, ?_, ?_⟩
    · -- parseValue
      intro v rest hsz hro
      cases v with
      | null =>
        rw [show Json.ser Json.null = ['n', 'u', 'l', 'l'] from rfl]
        rw [parseValue.eq_def]
        simp [skipWs, isJsonWs, expectLit, List.isPrefixOf, List.cons_prefix_cons]
      | bool b =>
        cases b with
        | true =>
          rw [show Json.ser (Json.bool true) = ['t', 'r', 'u', 'e'] from rfl]
          rw [parseValue.eq_def]
          simp [skipWs, isJsonWs, expectLit, List.isPrefixOf, List.cons_prefix_cons]
        | false =>
          rw [show Json.ser (Json.bool false) = ['f', 'a', 'l', 's', 'e'] from rfl]
          rw [parseValue.eq_def]
          simp [skipWs, isJsonWs, expectLit, List.isPrefixOf, List.cons_prefix_cons]
      | num nn =>
        obtain ⟨c, t, heq, hws, k1, k2, k3, k4, k5, k6⟩ := intToChars_head nn
        have hpn := parseNumber_roundtrip nn rest hro
        rw [heq, List.cons_append] at hpn
        rw [show Json.ser (Json.num nn) = intToChars nn from rfl, heq, List.cons_append]
        have hsk : skipWs (c :: (t ++ rest)) = c :: (t ++ rest) :=
          skipWs_cons_of_not_ws _ hws
        rw [parseValue.eq_def]
        simp [hsk, k1, k2, k3, k4, k5, k6, hpn]
      | str s =>
        rw [show Json.ser (Json.str s) = '"' :: ((s.map escapeChar).flatten ++ ['"']) from rfl]
        rw [parseValue.eq_def]
        simp [skipWs, isJsonWs, parseStringBody_roundtrip s rest]
      | arr xs =>
        have hsz2 : jsizeElems xs ≤ m := by simp [jsize] at hsz; omega
        rw [show Json.ser (Json.arr xs) = '[' :: (serElems xs ++ [']']) from rfl]
        rw [parseValue.eq_def]
        simp [skipWs, isJsonWs, ihab xs rest hsz2]
      | obj kvs =>
        have hsz2 : jsizeEntries kvs ≤ m := by simp [jsize] at hsz; omega
        rw [show Json.ser (Json.obj kvs) = '\x7b' :: (serEntries kvs ++ ['\x7d']) from rfl]
        rw [parseValue.eq_def]
        simp [skipWs, isJsonWs, ihob kvs rest hsz2]
    · -- parseArrayBody
      intro xs rest hsz
      cases xs with
      | nil =>
        rw [show serElems [] = [] from rfl]
        rw [parseArrayBody.eq_def]
        simp [skipWs, isJsonWs]
      | cons x t =>
        have hx : jsize x ≤ m := by
          simp [jsizeElems] at hsz
          have := jsizeElems_pos t
          omega
        have ht : jsizeElems t ≤ m := by
          simp [jsizeElems] at hsz
          have := jsize_pos x
          omega
        obtain ⟨c, u, heq, hws, hb1, hb2, hb3⟩ := ser_head x
        have hval := ihv x (serSepElems t ++ ']' :: rest) hx (restOk_sepElems t rest)
        have htail := ihat t rest ht
        rw [show serElems (x :: t) = Json.ser x ++ serSepElems t from rfl]
        rw [List.append_assoc, heq, List.cons_append]
        rw [heq, List.cons_append] at hval
        have hsk : skipWs (c :: (u ++ (serSepElems t ++ ']' :: rest))) =
            c :: (u ++ (serSepElems t ++ ']' :: rest)) :=
          skipWs_cons_of_not_ws _ hws
        rw [parseArrayBody.eq_def]
        simp [hsk, hb1, hval, htail]
    · -- parseArrayTail
      intro xs rest hsz
      cases xs with
      | nil =>
        rw [show serSepElems [] = [] from rfl]
        rw [parseArrayTail.eq_def]
        simp [skipWs, isJsonWs]
      | cons x t =>
        have hx : jsize x ≤ m := by
          simp [jsizeElems] at hsz
          have := jsizeElems_pos t
          omega
        have ht : jsizeElems t ≤ m := by
          simp [jsizeElems] at hsz
          have := jsize_pos x
          omega
        have hval := ihv x (serSepElems t ++ ']' :: rest) hx (restOk_sepElems t rest)
        have htail := ihat t rest ht
        rw [show serSepElems (x :: t) = ',' :: ' ' :: (Json.ser x ++ serSepElems t) from rfl]
        rw [List.cons_append, List.cons_append, List.append_assoc]
        rw [parseArrayTail.eq_def]
        have hpv : parseValue m (' ' :: (Json.ser x ++ (serSepElems t ++ ']' :: rest))) =
            some (x, serSepElems t ++ ']' :: rest) := by
          rw [parseValue_cons_ws m _ (by decide)]
          exact hval
        simp [skipWs, isJsonWs, hpv, htail]
    · -- parseObjBody
      intro kvs rest hsz
      cases kvs with
      | nil =>
        rw [show serEntries [] = [] from rfl]
        rw [parseObjBody.eq_def]
        simp [skipWs, isJsonWs]
      | cons kv t =>
        obtain ⟨k, v⟩ := kv
        have hx : jsize v ≤ m := by
          simp [jsizeEntries] at hsz
          have := jsizeEntries_pos t
          omega
        have ht : jsizeEntries t ≤ m := by
          simp [jsizeEntries] at hsz
          have := jsize_pos v
          omega
        have hkey := parseStringBody_roundtrip k
          (':' :: ' ' :: (Json.ser v ++ (serSepEntries t ++ '\x7d' :: rest)))
        have hpv : parseValue m (' ' :: (Json.ser v ++ (serSepEntries t ++ '\x7d' :: rest))) =
            some (v, serSepEntries t ++ '\x7d' :: rest) := by
          rw [parseValue_cons_ws m _ (by decide)]
          exact ihv v _ hx (restOk_sepEntries t rest)
        have htail := ihot t rest ht
        rw [show serEntries ((k, v) :: t) =
          serStrLit k ++ ':' :: ' ' :: (Json.ser v ++ serSepEntries t) from rfl]
        rw [show serStrLit k = '"' :: ((k.map escapeChar).flatten ++ ['"']) from rfl]
        simp only [List.cons_append, List.append_assoc, List.nil_append]
        rw [parseObjBody.eq_def]
        simp [skipWs, isJsonWs, hkey, hpv, htail]
    · -- parseObjTail
      intro kvs rest hsz
      cases kvs with
      | nil =>
        rw [show serSepEntries [] = [] from rfl]
        rw [parseObjTail.eq_def]
        simp [skipWs, isJsonWs]
      | cons kv t =>
        obtain ⟨k, v⟩ := kv
        have hx : jsize v ≤ m := by
          simp [jsizeEntries] at hsz
          have := jsizeEntries_pos t
          omega
        have ht : jsizeEntries t ≤ m := by
          simp [jsizeEntries] at hsz
          have := jsize_pos v
          omega
        have hkey := parseStringBody_roundtrip k
          (':' :: ' ' :: (Json.ser v ++ (serSepEntries t ++ '\x7d' :: rest)))
        have hpv : parseValue m (' ' :: (Json.ser v ++ (serSepEntries t ++ '\x7d' :: rest))) =
            some (v, serSepEntries t ++ '\x7d' :: rest) := by
          rw [parseValue_cons_ws m _ (by decide)]
          exact ihv v _ hx (restOk_sepEntries t rest)
        have htail := ihot t rest ht
        rw [show serSepEntries ((k, v) :: t) =
          ',' :: ' ' :: (serStrLit k ++ ':' :: ' ' :: (Json.ser v ++ serSepEntries t)) from rfl]
        rw [show serStrLit k = '"' :: ((k.map escapeChar).flatten ++ ['"']) from rfl]
        simp only [List.cons_append, List.append_assoc, List.nil_append]
        rw [parseObjTail.eq_def]
        simp [skipWs, isJsonWs, hkey, hpv, htail]


mutual

/-- The required fuel is bounded by twice the serialized length. -/
theorem jsize_le_ser (v : Json) : jsize v ≤ 2 * (Json.ser v).length := by
  cases v with
  | null => decide
  | bool b => cases b <;> decide
  | num n =>
    have h := natToChars_ne_nil n.natAbs
    have hlen : 1 ≤ (intToChars n).length := by
      by_cases hn : n < 0 <;> simp [intToChars, hn] <;> cases hnc : natToChars n.natAbs <;>
        simp_all
    simp only [jsize, Json.ser]
    omega
  | str s =>
    simp [jsize, Json.ser, serStrLit]
    omega
  | arr xs =>
    have h := jsizeElems_le_serElems xs
    simp only [jsize, Json.ser, List.length_cons, List.length_append, List.length_singleton]
    omega
  | obj kvs =>
    have h := jsizeEntries_le_serEntries kvs
    simp only [jsize, Json.ser, List.length_cons, List.length_append, List.length_singleton]
    omega

theorem jsizeElems_le_serElems (xs : List Json) :
    jsizeElems xs ≤ 2 * (serElems xs).length + 2 := by
  cases xs with
  | nil => simp [jsizeElems, serElems]
  | cons x t =>
    have h1 := jsize_le_ser x
    have h2 := jsizeElems_le_serSepElems t
    simp only [jsizeElems, serElems, List.length_append]
    omega

theorem jsizeElems_le_serSepElems (xs : List Json) :
    jsizeElems xs ≤ 2 * (serSepElems xs).length + 1 := by
  cases xs with
  | nil => simp [jsizeElems, serSepElems]
  | cons x t =>
    have h1 := jsize_le_ser x
    have h2 := jsizeElems_le_serSepElems t
    simp only [jsizeElems, serSepElems, List.length_cons, List.length_append]
    omega

theorem jsizeEntries_le_serEntries (kvs : List (List Char × Json)) :
    jsizeEntries kvs ≤ 2 * (serEntries kvs).length + 2 := by
  cases kvs with
  | nil => simp [jsizeEntries, serEntries]
  | cons kv t =>
    have h1 := jsize_le_ser kv.2
    have h2 := jsizeEntries_le_serSepEntries t
    simp only [jsizeEntries, serEntries, List.length_cons, List.length_append]
    omega

theorem jsizeEntries_le_serSepEntries (kvs : List (List Char × Json)) :
    jsizeEntries kvs ≤ 2 * (serSepEntries kvs).length + 1 := by
  cases kvs with
  | nil => simp [jsizeEntries, serSepEntries]
  | cons kv t =>
    have h1 := jsize_le_ser kv.2
    have h2 := jsizeEntries_le_serSepEntries t
    simp only [jsizeEntries, serSepEntries, List.length_cons, List.length_append]
    omega

end

/-- `json.loads` recovers every serialized value: the central parser
correctness fact. -/
theorem jsonLoads_ser (v : Json) : jsonLoads (Json.ser v) = some v := by
  have hfuel : jsize v ≤ 2 * (Json.ser v).length + 2 := by
    have := jsize_le_ser v
    omega
  have h := (parse_roundtrip_strong (2 * (Json.ser v).length + 2)).1 v [] hfuel (by rfl)
  rw [List.append_nil] at h
  simp [jsonLoads, h, skipWs]


/-- Python `str(v)` on a JSON scalar, as used by the context builder for
non-list, non-dict field values. -/
def Json.pyStr : Json → List Char
  | .null => S "None"
  | .bool true => S "True"
  | .bool false => S "False"
  | .num n => intToChars n
  | .str s => s
  | .arr xs => Json.ser (.arr xs)
  | .obj kvs => Json.ser (.obj kvs)

/-! ### Behaviour of the response parser's stages -/

/-- Every character of `u` is Python whitespace. -/
def wsOnly (u : List Char) : Prop := ∀ x ∈ u, isPySpace x = true

theorem dropWhile_append_all {α : Type} (pred : α → Bool) (u l : List α)
    (hu : ∀ x ∈ u, pred x = true) :
    (u ++ l).dropWhile pred = l.dropWhile pred := by
  induction u with
  | nil => simp
  | cons c cs ihc =>
    simp only [List.cons_append, List.dropWhile, hu c (by simp)]
    exact ihc (fun x hx => hu x (by simp [hx]))

theorem dropWhile_cons_false {α : Type} (pred : α → Bool) (c : α) (l : List α)
    (hc : pred c = false) : (c :: l).dropWhile pred = c :: l := by
  simp [List.dropWhile, hc]

theorem pyStrip_ws_sandwich {u w mid : List Char} {c d : Char} (hu : wsOnly u) (hw : wsOnly w)
    (h1 : isPySpace c = false) (h2 : isPySpace d = false) :
    pyStrip (u ++ (c :: mid ++ [d]) ++ w) = c :: mid ++ [d] := by
  unfold pyStrip
  have e1 : (u ++ (c :: mid ++ [d]) ++ w) = u ++ (c :: (mid ++ [d] ++ w)) := by simp
  rw [e1, dropWhile_append_all _ u _ hu, dropWhile_cons_false _ _ _ h1]
  have e2 : (c :: (mid ++ [d] ++ w)).reverse = w.reverse ++ (d :: (mid.reverse ++ [c])) := by
    simp
  rw [e2, dropWhile_append_all _ w.reverse _ (fun x hx => hw x (by simpa using hx)),
    dropWhile_cons_false _ _ _ h2]
  simp

theorem pyStrip_sandwich {mid : List Char} {c d : Char}
    (h1 : isPySpace c = false) (h2 : isPySpace d = false) :
    pyStrip (c :: mid ++ [d]) = c :: mid ++ [d] := by
  have := @pyStrip_ws_sandwich [] [] mid c d
    (by intro x hx; simp at hx) (by intro x hx; simp at hx) h1 h2
  simpa using this

theorem isPrefixOf_self_append (l r : List Char) : l.isPrefixOf (l ++ r) = true := by
  induction l with
  | nil => simp [List.isPrefixOf]
  | cons c cs ihc => simpa [List.isPrefixOf] using ihc

theorem fence7_mismatch {c : Char} (hc : c ≠ '\x60') (cs : List Char) :
    (S "```json").isPrefixOf (c :: cs) = false := by
  rw [show S "```json" = '\x60' :: S "``json" from rfl]
  have hb : ('\x60' == c) = false := beq_eq_false_iff_ne.mpr (fun h => hc h.symm)
  simp [List.isPrefixOf, hb]

theorem fence3_mismatch {c : Char} (hc : c ≠ '\x60') (cs : List Char) :
    (S "```").isPrefixOf (c :: cs) = false := by
  rw [show S "```" = '\x60' :: S "``" from rfl]
  have hb : ('\x60' == c) = false := beq_eq_false_iff_ne.mpr (fun h => hc h.symm)
  simp [List.isPrefixOf, hb]

theorem fence3_suffix_append (l : List Char) : (S "```").isSuffixOf (l ++ S "```") = true := by
  show (S "```").reverse.isPrefixOf (l ++ S "```").reverse = true
  rw [List.reverse_append, show (S "```").reverse = S "```" from rfl]
  exact isPrefixOf_self_append _ _

theorem fence3_not_suffix {c d : Char} (hd : d ≠ '\x60') (mid : List Char) :
    (S "```").isSuffixOf (c :: mid ++ [d]) = false := by
  show (S "```").reverse.isPrefixOf (c :: mid ++ [d]).reverse = false
  have e : (c :: mid ++ [d]).reverse = d :: (mid.reverse ++ [c]) := by simp
  rw [e, show (S "```").reverse = S "```" from rfl]
  exact fence3_mismatch hd _

theorem take_fence_tail (l : List Char) :
    (l ++ S "```").take ((l ++ S "```").length - 3) = l := by
  have e : (l ++ S "```").length - 3 = l.length := by
    rw [List.length_append, show (S "```").length = 3 from rfl]
    omega
  rw [e, List.take_left]

/-- A serialized object passes `preprocess` unchanged. -/
theorem preprocess_ser_obj (kvs : List (List Char × Json)) :
    preprocess (Json.ser (Json.obj kvs)) = Json.ser (Json.obj kvs) := by
  have hshape : Json.ser (Json.obj kvs) = '\x7b' :: serEntries kvs ++ ['\x7d'] := rfl
  have h1 : pyStrip (Json.ser (Json.obj kvs)) = Json.ser (Json.obj kvs) := by
    rw [hshape]; exact pyStrip_sandwich (by decide) (by decide)
  have h2 : (S "```json").isPrefixOf (Json.ser (Json.obj kvs)) = false := by
    rw [hshape]; exact fence7_mismatch (by decide) _
  have h3 : (S "```").isPrefixOf (Json.ser (Json.obj kvs)) = false := by
    rw [hshape]; exact fence3_mismatch (by decide) _
  have h4 : (S "```").isSuffixOf (Json.ser (Json.obj kvs)) = false := by
    rw [hshape]; exact fence3_not_suffix (by decide) _
  unfold preprocess
  simp only [h1, h2, h3, h4, Bool.false_eq_true, if_false]

/-- Stage 1: the parser recovers a directly serialized object. -/
theorem parseJsonResponse_direct (kvs : List (List Char × Json)) :
    parseJsonResponse (Json.ser (Json.obj kvs)) = Json.obj kvs := by
  unfold parseJsonResponse
  simp only [preprocess_ser_obj, jsonLoads_ser]

/-- Stage 2 (with language tag): the parser unwraps a
```` ```json ```` fence around a serialized object. -/
theorem parseJsonResponse_fenced_json (kvs : List (List Char × Json)) :
    parseJsonResponse (S "```json" ++ '\n' :: Json.ser (Json.obj kvs) ++ '\n' :: S "```") =
      Json.obj kvs := by
  have hshape : Json.ser (Json.obj kvs) = '\x7b' :: serEntries kvs ++ ['\x7d'] := rfl
  set input : List Char := S "```json" ++ '\n' :: Json.ser (Json.obj kvs) ++ '\n' :: S "```"
    with hinput
  have hsand : input =
      '\x60' :: (S "``json" ++ '\n' :: Json.ser (Json.obj kvs) ++ '\n' :: S "``") ++
        ['\x60'] := by
    rw [hinput, show S "```json" = '\x60' :: S "``json" from rfl,
      show (S "```" : List Char) = S "``" ++ ['\x60'] from rfl]
    simp
  have h1 : pyStrip input = input := by
    rw [hsand]; exact pyStrip_sandwich (by decide) (by decide)
  have h2 : (S "```json").isPrefixOf input = true := by
    rw [hinput]; exact isPrefixOf_self_append _ _
  have hdrop : input.drop 7 = '\n' :: Json.ser (Json.obj kvs) ++ '\n' :: S "```" := by
    rw [hinput]
    exact List.drop_left (S "```json") ('\n' :: Json.ser (Json.obj kvs) ++ '\n' :: S "```")
  have h3 : (S "```").isPrefixOf ('\n' :: Json.ser (Json.obj kvs) ++ '\n' :: S "```") =
      false := fence3_mismatch (by decide) _
  have hsplit : '\n' :: Json.ser (Json.obj kvs) ++ '\n' :: S "```" =
      ('\n' :: Json.ser (Json.obj kvs) ++ ['\n']) ++ S "```" := by simp
  have h4 : (S "```").isSuffixOf ('\n' :: Json.ser (Json.obj kvs) ++ '\n' :: S "```") =
      true := by
    rw [hsplit]; exact fence3_suffix_append _
  have htake : ('\n' :: Json.ser (Json.obj kvs) ++ '\n' :: S "```").take
      (('\n' :: Json.ser (Json.obj kvs) ++ '\n' :: S "```").length - 3) =
      '\n' :: Json.ser (Json.obj kvs) ++ ['\n'] := by
    rw [hsplit]; exact take_fence_tail _
  have h5 : pyStrip ('\n' :: Json.ser (Json.obj kvs) ++ ['\n']) = Json.ser (Json.obj kvs) := by
    have e : '\n' :: Json.ser (Json.obj kvs) ++ ['\n'] =
        ['\n'] ++ ('\x7b' :: serEntries kvs ++ ['\x7d']) ++ ['\n'] := by
      rw [← hshape]; simp
    rw [e, pyStrip_ws_sandwich (by intro x hx; simp at hx; simp [hx, isPySpace])
      (by intro x hx; simp at hx; simp [hx, isPySpace]) (by decide) (by decide), ← hshape]
  have hpre : preprocess input = Json.ser (Json.obj kvs) := by
    unfold preprocess
    simp only [h1, h2, if_true, hdrop, h3, Bool.false_eq_true, if_false, h4, htake, h5]
  unfold parseJsonResponse
  simp only [hpre, jsonLoads_ser]

/-- Stage 2 (no language tag): the parser unwraps a bare ```` ``` ````
fence around a serialized object. -/
theorem parseJsonResponse_fenced_plain (kvs : List (List Char × Json)) :
    parseJsonResponse (S "```" ++ '\n' :: Json.ser (Json.obj kvs) ++ '\n' :: S "```") =
      Json.obj kvs := by
  set input : List Char := S "```" ++ '\n' :: Json.ser (Json.obj kvs) ++ '\n' :: S "```"
    with hinput
  have hsand : input =
      '\x60' :: (S "``" ++ '\n' :: Json.ser (Json.obj kvs) ++ '\n' :: S "``") ++
        ['\x60'] := by
    rw [hinput, show (S "```" : List Char) = ['\x60', '\x60', '\x60'] from rfl,
      show (S "``" : List Char) = ['\x60', '\x60'] from rfl]
    simp
  have h1 : pyStrip input = input := by
    rw [hsand]; exact pyStrip_sandwich (by decide) (by decide)
  have h2 : (S "```json").isPrefixOf input = false := by
    rw [hinput, show (S "```json" : List Char) =
      '\x60' :: '\x60' :: '\x60' :: 'j' :: S "son" from rfl,
      show (S "```" : List Char) = '\x60' :: '\x60' :: '\x60' :: [] from rfl]
    simp [List.isPrefixOf]
  have h3 : (S "```").isPrefixOf input = true := by
    rw [hinput]; exact isPrefixOf_self_append _ _
  have hdrop : input.drop 3 = '\n' :: Json.ser (Json.obj kvs) ++ '\n' :: S "```" := by
    rw [hinput]
    exact List.drop_left (S "```") ('\n' :: Json.ser (Json.obj kvs) ++ '\n' :: S "```")
  have h4 : (S "```").isPrefixOf ('\n' :: Json.ser (Json.obj kvs) ++ '\n' :: S "```") =
      false := fence3_mismatch (by decide) _
  have hsplit : '\n' :: Json.ser (Json.obj kvs) ++ '\n' :: S "```" =
      ('\n' :: Json.ser (Json.obj kvs) ++ ['\n']) ++ S "```" := by simp
  have h5 : (S "```").isSuffixOf ('\n' :: Json.ser (Json.obj kvs) ++ '\n' :: S "```") =
      true := by
    rw [hsplit]; exact fence3_suffix_append _
  have htake : ('\n' :: Json.ser (Json.obj kvs) ++ '\n' :: S "```").take
      (('\n' :: Json.ser (Json.obj kvs) ++ '\n' :: S "```").length - 3) =
      '\n' :: Json.ser (Json.obj kvs) ++ ['\n'] := by
    rw [hsplit]; exact take_fence_tail _
  have hshape : Json.ser (Json.obj kvs) = '\x7b' :: serEntries kvs ++ ['\x7d'] := rfl
  have h6 : pyStrip ('\n' :: Json.ser (Json.obj kvs) ++ ['\n']) = Json.ser (Json.obj kvs) := by
    have e : '\n' :: Json.ser (Json.obj kvs) ++ ['\n'] =
        ['\n'] ++ ('\x7b' :: serEntries kvs ++ ['\x7d']) ++ ['\n'] := by
      rw [← hshape]; simp
    rw [e, pyStrip_ws_sandwich (by intro x hx; simp at hx; simp [hx, isPySpace])
      (by intro x hx; simp at hx; simp [hx, isPySpace]) (by decide) (by decide), ← hshape]
  have hpre : preprocess input = Json.ser (Json.obj kvs) := by
    unfold preprocess
    simp only [h1, h2, Bool.false_eq_true, if_false, h3, if_true, hdrop, h4, h5, htake, h6]
  unfold parseJsonResponse
  simp only [hpre, jsonLoads_ser]

/-- `dropWhile` walks through `l` and stops at an explicit failing
head. -/
theorem dropWhile_append_stop {α : Type} (pred : α → Bool) (l rest : List α) (c : α)
    (hc : pred c = false) :
    (l ++ c :: rest).dropWhile pred = l.dropWhile pred ++ c :: rest := by
  rw [List.dropWhile_append]
  by_cases he : (l.dropWhile pred).isEmpty
  · simp only [he, if_true]
    rw [dropWhile_cons_false _ _ _ hc]
    simp only [List.isEmpty_iff] at he
    rw [he]
    simp
  · simp [he]

/-- `pyStrip` on prose-wrapped content: strips only the outer
whitespace of the prose. -/
theorem pyStrip_prose (p t mid : List Char) {c d : Char}
    (h1 : isPySpace c = false) (h2 : isPySpace d = false) :
    pyStrip (p ++ (c :: mid ++ [d]) ++ t) =
      p.dropWhile isPySpace ++ (c :: mid ++ [d]) ++
        (t.reverse.dropWhile isPySpace).reverse := by
  unfold pyStrip
  rw [show p ++ (c :: mid ++ [d]) ++ t = p ++ c :: (mid ++ [d] ++ t) by simp,
    dropWhile_append_stop _ _ _ _ h1]
  rw [show (p.dropWhile isPySpace ++ c :: (mid ++ [d] ++ t)).reverse
      = t.reverse ++ d :: (mid.reverse ++ c :: (p.dropWhile isPySpace).reverse) by simp,
    dropWhile_append_stop _ _ _ _ h2]
  simp

/-- The first-`{`-to-last-`}` span of prose-wrapped content with no
stray braces is exactly the wrapped object. -/
theorem braceSpan_prose (p2 t2 mid : List Char)
    (hp : '\x7b' ∉ p2) (ht : '\x7d' ∉ t2) :
    braceSpan (p2 ++ ('\x7b' :: mid ++ ['\x7d']) ++ t2) =
      some ('\x7b' :: mid ++ ['\x7d']) := by
  have e1 : p2 ++ ('\x7b' :: mid ++ ['\x7d']) ++ t2 =
      p2 ++ '\x7b' :: (mid ++ ['\x7d'] ++ t2) := by simp
  have hpre : (p2 ++ ('\x7b' :: mid ++ ['\x7d']) ++ t2).dropWhile
      (fun c => decide (c ≠ '\x7b')) = '\x7b' :: (mid ++ ['\x7d'] ++ t2) := by
    rw [e1, dropWhile_append_all _ p2 _ (by
      intro x hx
      simp only [decide_eq_true_eq]
      rintro rfl
      exact hp hx)]
    exact dropWhile_cons_false _ _ _ (by simp)
  have hspan : (('\x7b' :: (mid ++ ['\x7d'] ++ t2)).reverse.dropWhile
      (fun c => decide (c ≠ '\x7d'))).reverse = '\x7b' :: mid ++ ['\x7d'] := by
    rw [show ('\x7b' :: (mid ++ ['\x7d'] ++ t2)).reverse =
        t2.reverse ++ '\x7d' :: (mid.reverse ++ ['\x7b']) by simp]
    rw [dropWhile_append_all _ t2.reverse _ (by
      intro x hx
      simp only [decide_eq_true_eq]
      rintro rfl
      exact ht (by simpa using hx))]
    rw [dropWhile_cons_false _ _ _ (by simp)]
    simp
  unfold braceSpan
  simp only [hpre, hspan]
  simp

/-- Stage 4: when both load attempts fail, the parser returns the
structured error payload built from the preprocessed content. -/
theorem parseJsonResponse_unparseable (cs : List Char)
    (h1 : jsonLoads (preprocess cs) = none)
    (h2 : ∀ span, braceSpan (preprocess cs) = some span → jsonLoads span = none) :
    parseJsonResponse cs = errorPayload (preprocess cs) := by
  unfold parseJsonResponse
  cases hb : braceSpan (preprocess cs) with
  | none => simp [h1, hb]
  | some span => simp [h1, hb, h2 span hb]

theorem fence7_mismatch_of_head {l : List Char} (hne : l ≠ [])
    (hh : ∀ c, l.head? = some c → c ≠ '\x60') :
    (S "```json").isPrefixOf l = false := by
  obtain ⟨c, rest, rfl⟩ := List.exists_cons_of_ne_nil hne
  exact fence7_mismatch (hh c rfl) _

theorem fence3_mismatch_of_head {l : List Char} (hne : l ≠ [])
    (hh : ∀ c, l.head? = some c → c ≠ '\x60') :
    (S "```").isPrefixOf l = false := by
  obtain ⟨c, rest, rfl⟩ := List.exists_cons_of_ne_nil hne
  exact fence3_mismatch (hh c rfl) _

theorem fence3_not_suffix_of_getLast {l : List Char} (hne : l ≠ [])
    (hd : ∀ d, l.getLast? = some d → d ≠ '\x60') :
    (S "```").isSuffixOf l = false := by
  show (S "```").reverse.isPrefixOf l.reverse = false
  have hrn : l.reverse ≠ [] := by simpa using hne
  obtain ⟨d, rest, hrev⟩ := List.exists_cons_of_ne_nil hrn
  rw [hrev, show ((S "```").reverse : List Char) = S "```" from rfl]
  refine fence3_mismatch (hd d ?_) _
  rw [← List.head?_reverse, hrev]
  rfl

/-- Stage 3 (prose-wrapped): when the strict load of the full content
fails, the brace-span fallback recovers an object embedded in prose
that contains no stray braces or backticks. -/
theorem parseJsonResponse_prose (kvs : List (List Char × Json)) (p t : List Char)
    (hpb : '\x7b' ∉ p) (hpg : '\x60' ∉ p) (htb : '\x7d' ∉ t) (htg : '\x60' ∉ t)
    (h1 : jsonLoads (preprocess (p ++ Json.ser (Json.obj kvs) ++ t)) = none) :
    parseJsonResponse (p ++ Json.ser (Json.obj kvs) ++ t) = Json.obj kvs := by
  have hshape : Json.ser (Json.obj kvs) = '\x7b' :: serEntries kvs ++ ['\x7d'] := rfl
  set p2 : List Char := p.dropWhile isPySpace with hp2
  set t2 : List Char := (t.reverse.dropWhile isPySpace).reverse with ht2
  have hp2mem : ∀ x ∈ p2, x ∈ p := fun x hx => (List.dropWhile_sublist isPySpace).mem hx
  have ht2mem : ∀ x ∈ t2, x ∈ t := by
    intro x hx
    rw [ht2] at hx
    have : x ∈ t.reverse.dropWhile isPySpace := by simpa using hx
    have : x ∈ t.reverse := (List.dropWhile_sublist isPySpace).mem this
    simpa using this
  set X : List Char := p2 ++ Json.ser (Json.obj kvs) ++ t2 with hX
  have hstrip : pyStrip (p ++ Json.ser (Json.obj kvs) ++ t) = X := by
    rw [hX, hshape]
    exact pyStrip_prose p t (serEntries kvs) (by decide) (by decide)
  have hXne : X ≠ [] := by
    rw [hX, hshape]
    intro h
    have := congrArg List.length h
    simp at this
  have hXhead : ∀ c, X.head? = some c → c ≠ '\x60' := by
    intro c hc
    rw [hX] at hc
    cases hp2e : p2 with
    | nil =>
      rw [hp2e, hshape] at hc
      simp at hc
      subst hc
      decide
    | cons a p3 =>
      rw [hp2e] at hc
      simp at hc
      subst hc
      intro hfe
      exact hpg (hfe ▸ hp2mem a (by simp [hp2e]))
  have hXlast : ∀ d, X.getLast? = some d → d ≠ '\x60' := by
    intro d hd
    rcases List.eq_nil_or_concat t2 with ht2e | ⟨t3, e, ht2e⟩
    · have hval : X.getLast? = some '\x7d' := by
        rw [hX, ht2e, List.append_nil,
          List.getLast?_append_of_ne_nil _ (by rw [hshape]; simp), hshape]
        exact List.getLast?_concat _
      rw [hval] at hd
      simp at hd
      subst hd
      decide
    · have hval : X.getLast? = some e := by
        rw [hX, ht2e, List.concat_eq_append,
          List.getLast?_append_of_ne_nil _ (by simp),
          List.getLast?_append_of_ne_nil _ (by simp)]
        rfl
      rw [hval] at hd
      simp at hd
      subst hd
      intro hfe
      exact htg (hfe ▸ ht2mem e (by simp [ht2e]))
  have hf7 : (S "```json").isPrefixOf X = false := fence7_mismatch_of_head hXne hXhead
  have hf3 : (S "```").isPrefixOf X = false := fence3_mismatch_of_head hXne hXhead
  have hfs : (S "```").isSuffixOf X = false := fence3_not_suffix_of_getLast hXne hXlast
  have hstrip2 : pyStrip X = X := by
    rw [hX, hshape]
    have e := @pyStrip_prose p2 t2 (serEntries kvs)
      '\x7b' '\x7d' (by decide) (by decide)
    rw [e, hp2, List.dropWhile_idempotent, ht2]
    simp [List.dropWhile_idempotent]
  have hpre : preprocess (p ++ Json.ser (Json.obj kvs) ++ t) = X := by
    unfold preprocess
    simp only [hstrip, hf7, hf3, hfs, Bool.false_eq_true, if_false]
    exact hstrip2
  have hspan : braceSpan X = some (Json.ser (Json.obj kvs)) := by
    rw [hX, hshape]
    exact braceSpan_prose p2 t2 (serEntries kvs)
      (fun hm => hpb (hp2mem _ hm)) (fun hm => htb (ht2mem _ hm))
  rw [hpre] at h1
  unfold parseJsonResponse
  simp only [hpre, h1, hspan, jsonLoads_ser]

/-! ### Data model (`backend/app/db/models.py`) -/

/-- `TdrTipo`: the document-type enumeration. -/
inductive TdrTipo where
  | BIEN : TdrTipo
  | OBRA : TdrTipo
  | CONSULTORIA_OBRA : TdrTipo
  | SERVICIO : TdrTipo
deriving DecidableEq

/-- The string value of a `TdrTipo` member. -/
def TdrTipo.value : TdrTipo → List Char
  | .BIEN => S "BIEN"
  | .OBRA => S "OBRA"
  | .CONSULTORIA_OBRA => S "CONSULTORIA_OBRA"
  | TdrTipo.SERVICIO => S "SERVICIO"

/-- The enum constructor `TdrTipo(s)`; `none` models the `ValueError`
raised on an unknown value. -/
def tdrTipoOfString (s : List Char) : Option TdrTipo :=
  if s = S "BIEN" then some .BIEN
  else if s = S "OBRA" then some .OBRA
  else if s = S "CONSULTORIA_OBRA" then some .CONSULTORIA_OBRA
  else if s = S "SERVICIO" then some TdrTipo.SERVICIO
  else none

/-- `TdrSearchResult` (models.py lines 29-36).  `similarity` is a float
in the source, modelled as a rational. -/
structure TdrSearchResult where
  id : List Char
  filename : List Char
  tipo : TdrTipo
  similarity : ℚ
  fields : List (List Char × Json)

/-! ### `ChromaDBClient.search` (`backend/app/db/chroma.py` lines 84-127)

The ChromaDB store itself is an external collaborator; the code under
verification is the per-record result construction.  A raw record is
one entry of the store's query reply: its id, its metadata mapping
(string-valued, as written by the ingestion scripts) and its distance. -/

/-- One record of the store's query reply, ranked ascending by
distance. -/
structure RawQueryRecord where
  id : List Char
  metadata : List (List Char × List Char)
  distance : ℚ

/-- Python `metadata.get(k)` on the string-valued metadata mapping. -/
def metaGet (m : List (List Char × List Char)) (k : List Char) : Option (List Char) :=
  (m.find? (fun kv => kv.1 = k)).map (fun kv => kv.2)

/-- chroma.py line 109: `similarity = 1 / (1 + distance)`. -/
def similarityOfDistance (d : ℚ) : ℚ := 1 / (1 + d)

/-- chroma.py lines 112-117: parse `fields_json` from the metadata.  An
absent key or a `JSONDecodeError` leaves the fields empty; a value that
parses to a non-object makes the subsequent pydantic validation of
`TdrSearchResult.fields` fail (`none`). -/
def fieldsFromMetadata (m : List (List Char × List Char)) :
    Option (List (List Char × Json)) :=
  match metaGet m (S "fields_json") with
  | none => some []
  | some s =>
    match jsonLoads s with
    | none => some []
    | some (Json.obj kvs) => some kvs
    | some _ => none

/-- chroma.py lines 119-125: build one `TdrSearchResult` from a raw
record.  `none` models an exception escaping the loop (an unknown
stored `tipo` value or non-object fields). -/
def buildSearchResult (r : RawQueryRecord) : Option TdrSearchResult :=
  match tdrTipoOfString ((metaGet r.metadata (S "tipo")).getD (S "SERVICIO")) with
  | none => none
  | some tipo =>
    match fieldsFromMetadata r.metadata with
    | none => none
    | some fields =>
      some { id := r.id
             filename := (metaGet r.metadata (S "filename")).getD []
             tipo := tipo
             similarity := similarityOfDistance r.distance
             fields := fields }

/-- `ChromaDBClient.search`: the loop over the store's reply (lines
102-127), one result per record in rank order. -/
def chromaSearch (records : List RawQueryRecord) : Option (List TdrSearchResult) :=
  records.mapM buildSearchResult

/-! ### `RAGService._build_context` (`backend/app/services/rag.py` lines 107-127) -/

/-- Round-half-even of a rational to an integer, the rounding of
Python float formatting. -/
def roundHalfEven (q : ℚ) : Int :=
  let fl : Int := ⌊q⌋
  let fr : ℚ := q - fl
  if fr < 1 / 2 then fl
  else if 1 / 2 < fr then fl + 1
  else if fl % 2 = 0 then fl else fl + 1

/-- Two decimal digits with a leading zero. -/
def twoDigits (m : Nat) : List Char :=
  if m < 10 then '0' :: natToChars m else natToChars m

/-- Python `f"{x:.2f}"` on the rational model of a float. -/
def fmt2f (q : ℚ) : List Char :=
  let n : Int := roundHalfEven (q * 100)
  let sign : List Char := if q < 0 then ['-'] else []
  sign ++ natToChars (n.natAbs / 100) ++ '.' :: twoDigits (n.natAbs % 100)

/-- The rendered text of one field value (rag.py lines 119-122):
structured values are JSON-encoded, scalars stringified, and either is
hard-truncated to 500 characters. -/
def renderValue (v : Json) : List Char :=
  match v with
  | .arr xs => (Json.ser (.arr xs)).take 500
  | .obj kvs => (Json.ser (.obj kvs)).take 500
  | other => (Json.pyStr other).take 500

/-- The field lines of one reference block (rag.py lines 117-123): at
most 15 fields, only truthy values. -/
def fieldLines (fields : List (List Char × Json)) : List (List Char) :=
  (fields.take 15).filterMap (fun kv =>
    if kv.2.truthy then some (S "  " ++ kv.1 ++ S ": " ++ renderValue kv.2) else none)

/-- One reference block: header with 1-based rank and 2-decimal
similarity, the filename, the type, the field lines, then the blank
separator line. -/
def refBlock (i : Nat) (ref : TdrSearchResult) : List (List Char) :=
  (S "=== REFERENCIA " ++ natToChars i ++ S " (Similaridad: " ++ fmt2f ref.similarity ++
      S ") ===")
    :: (S "Archivo: " ++ ref.filename)
    :: (S "Tipo: " ++ ref.tipo.value)
    :: fieldLines ref.fields ++ [[]]

/-- `RAGService._build_context`: newline-joined blocks, one per
reference, enumerated from 1. -/
def buildContext (referencias : List TdrSearchResult) : List Char :=
  List.intercalate ['\n']
    (((List.enumFrom 1 referencias).map (fun p => refBlock p.1 p.2)).flatten)


/-! ### The generation prompts (`backend/app/services/rag.py` lines 129-288) -/

/-- Python `a or b` on an optional string: `None` and the empty string
fall back to the default. -/
def pyOr (o : Option (List Char)) (dflt : List Char) : List Char :=
  match o with
  | none => dflt
  | some s => if s.isEmpty then dflt else s

/-- The `Campos ya completados` slot:
`json.dumps(campos_parciales, ensure_ascii=False) if campos_parciales else 'Ninguno'`. -/
def camposParcialesStr (o : Option (List (List Char × List Char))) : List Char :=
  match o with
  | none => S "Ninguno"
  | some [] => S "Ninguno"
  | some kvs => Json.ser (Json.obj (kvs.map (fun kv => (kv.1, Json.str kv.2))))

/-- The per-type field schema blocks (`campos_por_tipo`, lines 140-210);
`campos_por_tipo.get(tipo, campos_por_tipo[TdrTipo.SERVICIO])` always
finds the key, every member being present. -/
def camposPorTipo : TdrTipo → List Char
  | .BIEN => S "\n  \"denominacion_contratacion\": \"Nombre completo de la contratación\",\n  \"finalidad_publica\": \"Para qué se necesita este bien, beneficio a la ciudadanía\",\n  \"objetivo_general\": \"Objetivo principal de la contratación\",\n  \"objetivos_especificos\": \"Lista de objetivos específicos separados por punto y coma\",\n  \"alcance_descripcion_bienes\": \"Descripción detallada del bien a adquirir\",\n  \"caracteristicas\": \"Características físicas y funcionales del bien\",\n  \"caracteristicas_tecnicas\": \"Especificaciones técnicas detalladas\",\n  \"cantidad\": \"Cantidad a adquirir (número)\",\n  \"unidad_medida\": \"Unidad de medida (unidad, caja, etc.)\",\n  \"perfil_proveedor\": \"Requisitos que debe cumplir el proveedor\",\n  \"requisitos_proveedor\": \"Lista de documentos y requisitos\",\n  \"plazo\": \"Plazo de entrega en días calendario\",\n  \"lugar\": \"Lugar de entrega del bien\",\n  \"forma_pago\": \"Condiciones de pago\",\n  \"garantia_comercial\": \"Periodo de garantía del bien\",\n  \"penalidades\": \"Penalidades por incumplimiento\",\n  \"anticorrupcion_antisoborno\": \"Cláusula estándar anticorrupción\",\n  \"conformidad\": \"Quién otorga la conformidad\",\n  \"antecedentes\": \"Contexto y antecedentes de la necesidad\"\n"
  | TdrTipo.SERVICIO => S "\n  \"denominacion_contratacion\": \"Nombre completo del servicio\",\n  \"finalidad_publica\": \"Para qué se necesita este servicio, beneficio a la ciudadanía\",\n  \"objetivo_contratacion\": \"Objetivo principal de la contratación\",\n  \"objetivo_general\": \"Objetivo general del servicio\",\n  \"objetivos_especificos\": \"Lista de objetivos específicos\",\n  \"alcance_descripcion_servicio\": \"Descripción detallada del servicio\",\n  \"actividades\": \"Lista de actividades a realizar\",\n  \"entregables\": \"Lista de entregables con plazos\",\n  \"perfil_proveedor\": \"Perfil profesional requerido (formación, experiencia, conocimientos)\",\n  \"requisitos_proveedor\": \"Requisitos documentarios del proveedor\",\n  \"formacion_academica\": \"Formación académica requerida\",\n  \"experiencia\": \"Experiencia laboral requerida\",\n  \"plazo\": \"Plazo de ejecución del servicio\",\n  \"lugar\": \"Lugar de prestación del servicio\",\n  \"forma_pago\": \"Condiciones y forma de pago\",\n  \"penalidades\": \"Penalidades por incumplimiento\",\n  \"confidencialidad\": \"Cláusula de confidencialidad\",\n  \"anticorrupcion_antisoborno\": \"Cláusula estándar anticorrupción\",\n  \"conformidad\": \"Quién otorga la conformidad\",\n  \"antecedentes\": \"Contexto y antecedentes de la necesidad\"\n"
  | .CONSULTORIA_OBRA => S "\n  \"denominacion_contratacion\": \"Nombre de la consultoría\",\n  \"finalidad_publica\": \"Beneficio público de la consultoría\",\n  \"objetivo_contratacion\": \"Objetivo de la contratación\",\n  \"objetivo_general\": \"Objetivo general\",\n  \"objetivos_especificos\": \"Objetivos específicos\",\n  \"alcance_servicio\": \"Alcance de la consultoría\",\n  \"descripcion_detallada_servicio\": \"Descripción detallada\",\n  \"actividades\": \"Actividades de la consultoría\",\n  \"plan_trabajo\": \"Plan de trabajo propuesto\",\n  \"supervision\": \"Supervisión del servicio\",\n  \"funciones_especificas\": \"Funciones del consultor\",\n  \"perfil_proveedor\": \"Perfil profesional requerido\",\n  \"plazo\": \"Plazo de ejecución\",\n  \"conformidad\": \"Otorgamiento de conformidad\",\n  \"penalidades\": \"Penalidades aplicables\",\n  \"costo_total\": \"Costo total de la consultoría\"\n"
  | .OBRA => S "\n  \"denominacion_contratacion\": \"Nombre de la obra\",\n  \"descripcion\": \"Descripción de la obra\",\n  \"cantidad\": \"Cantidad o metraje\",\n  \"unidad_medida\": \"Unidad de medida\",\n  \"valor_unitario\": \"Valor unitario\",\n  \"importe_total\": \"Importe total\"\n"

/-- The full with-context generation prompt (lines 214-244). -/
def geminiPrompt (tipo : TdrTipo) (contexto : List Char)
    (descripcion_inicial objeto_contratacion : Option (List Char))
    (campos_parciales : Option (List (List Char × List Char))) : List Char :=
  S "Eres un experto en contrataciones públicas del estado peruano.\n\nTu tarea es generar TODOS los campos para un nuevo TDR (Términos de Referencia) de tipo \"" ++
    tipo.value ++
    S "\".\n\nCONTEXTO - TDRs similares como referencia:\n" ++
    contexto ++
    S "\n\nINFORMACIÓN DEL NUEVO TDR:\n- Tipo: " ++
    tipo.value ++
    S "\n- Descripción inicial: " ++
    pyOr descripcion_inicial (S "No proporcionada") ++
    S "\n- Objeto de contratación: " ++
    pyOr objeto_contratacion (S "No proporcionado") ++
    S "\n- Campos ya completados: " ++
    camposParcialesStr campos_parciales ++
    S "\n\nINSTRUCCIONES IMPORTANTES:\n1. GENERA TODOS los campos listados abajo - no dejes ninguno vacío\n2. Basándote en los TDRs de referencia, crea contenido coherente y profesional\n3. Usa lenguaje formal propio de documentos gubernamentales peruanos\n4. Para campos legales (anticorrupción, confidencialidad), usa textos estándar del estado peruano\n5. Adapta todo al contexto específico del objeto de contratación\n6. Sé específico y detallado, evita frases genéricas\n\nCAMPOS A GENERAR (todos obligatorios):\n\x7b\n" ++
    camposPorTipo tipo ++
    S "\n\x7d\n\nTEXTOS ESTÁNDAR A USAR:\n- Para \"anticorrupcion_antisoborno\": \"El contratista declara y garantiza no haber ofrecido, negociado o efectuado cualquier pago, objeto de valor o cualquier dádiva en general a funcionarios públicos. Se compromete a conducirse en todo momento con honestidad, probidad, veracidad e integridad, así como no incurrir en prácticas de corrupción, soborno o cualquier tipo de acto contrario a la ética.\"\n- Para \"confidencialidad\": \"El contratista se obliga a mantener en reserva y confidencialidad la información a la que tenga acceso en razón del servicio contratado. Queda prohibido revelar, publicar, difundir o usar esta información sin autorización expresa de la Entidad, durante y después de la vigencia del contrato.\"\n\nResponde SOLO con el JSON válido, sin explicaciones ni markdown."

/-- The shorter no-context prompt (lines 265-269). -/
def noContextPrompt (tipo : TdrTipo)
    (descripcion_inicial objeto_contratacion : Option (List Char)) : List Char :=
  S "Genera campos para un TDR de tipo \"" ++
    tipo.value ++
    S "\" con la siguiente información:\n- Descripción: " ++
    pyOr descripcion_inicial (S "No proporcionada") ++
    S "\n- Objeto: " ++
    pyOr objeto_contratacion (S "No proporcionado") ++
    S "\n\nResponde con un JSON de campos típicos para este tipo de TDR."


/-! ### `RAGService.generate_fields` (`backend/app/services/rag.py` lines 50-105)

The embedding model, the vector store and the Gemini client are
external collaborators.  `search` stands for `search_similar_tdrs`
(query text, type filter, limit); `gen` is the generation oracle: call
index and prompt to raw response text.  The call index is threaded
through so that the number of generator calls is observable. -/

/-- `GenerateFieldsResponse` (models.py lines 47-53). -/
structure GenerateFieldsResponse where
  success : Bool
  tipo : TdrTipo
  campos_sugeridos : Json
  referencias_usadas : List TdrSearchResult
  confidence : ℚ

/-- The retrieval query synthesized at lines 66-75: type, then the
truthy description, object and partial fields, newline-joined. -/
def buildQuery (tipo : TdrTipo) (descripcion_inicial objeto_contratacion : Option (List Char))
    (campos_parciales : Option (List (List Char × List Char))) : List Char :=
  let parts1 := [S "Tipo: " ++ tipo.value]
  let parts2 := parts1 ++ (match descripcion_inicial with
    | some s => if s.isEmpty then [] else [s]
    | none => [])
  let parts3 := parts2 ++ (match objeto_contratacion with
    | some s => if s.isEmpty then [] else [s]
    | none => [])
  let parts4 := parts3 ++ (match campos_parciales with
    | none => []
    | some kvs => kvs.map (fun kv => kv.1 ++ S ": " ++ kv.2))
  List.intercalate ['\n'] parts4

/-- `RAGService._generate_with_gemini` (lines 129-256): compose the
prompt, call the generator once, parse its response. -/
def generateWithGemini (gen : Nat → List Char → List Char) (k : Nat) (tipo : TdrTipo)
    (contexto : List Char) (descripcion_inicial objeto_contratacion : Option (List Char))
    (campos_parciales : Option (List (List Char × List Char))) : Json × Nat :=
  let prompt := geminiPrompt tipo contexto descripcion_inicial objeto_contratacion
    campos_parciales
  (parseJsonResponse (gen k prompt), k + 1)

/-- `RAGService._generate_without_context` (lines 258-288). -/
def generateWithoutContext (gen : Nat → List Char → List Char) (k : Nat) (tipo : TdrTipo)
    (descripcion_inicial objeto_contratacion : Option (List Char)) :
    GenerateFieldsResponse × Nat :=
  let prompt := noContextPrompt tipo descripcion_inicial objeto_contratacion
  let campos := parseJsonResponse (gen k prompt)
  ({ success := true, tipo := tipo, campos_sugeridos := campos,
     referencias_usadas := [], confidence := 3 / 10 }, k + 1)

/-- `RAGService.generate_fields` (lines 50-105). -/
def generateFields (search : List Char → TdrTipo → Nat → List TdrSearchResult)
    (gen : Nat → List Char → List Char) (k : Nat) (tipo : TdrTipo)
    (descripcion_inicial objeto_contratacion : Option (List Char))
    (campos_parciales : Option (List (List Char × List Char)))
    (num_referencias : Nat) : GenerateFieldsResponse × Nat :=
  let query := buildQuery tipo descripcion_inicial objeto_contratacion campos_parciales
  let referencias := search query tipo num_referencias
  if referencias.isEmpty then
    generateWithoutContext gen k tipo descripcion_inicial objeto_contratacion
  else
    let contexto := buildContext referencias
    let p := generateWithGemini gen k tipo contexto descripcion_inicial
      objeto_contratacion campos_parciales
    let avg := (referencias.map (fun r => r.similarity)).sum / (referencias.length : ℚ)
    ({ success := true, tipo := tipo, campos_sugeridos := p.1,
       referencias_usadas := referencias, confidence := avg }, p.2)

/-! ### `ChromaDBClient.add_tdrs_batch` (`backend/app/db/chroma.py` lines 69-82) -/

/-- One stored tuple of the vector store. -/
structure ChromaRecord where
  id : List Char
  embedding : List ℚ
  metadata : List (List Char × List Char)
  document : List Char

/-- The state of the store's collection. -/
structure ChromaCollection where
  records : List ChromaRecord

/-- Modelled from the spec: the external ChromaDB `collection.add`,
which is not part of this repository (only its caller
`add_tdrs_batch` is).  Per the spec (sections 4.2 and 8) the store
validates that the four sequences have equal lengths and fails with an
arity error, storing nothing, otherwise. -/
def collectionAdd (col : ChromaCollection) (ids : List (List Char))
    (embeddings : List (List ℚ)) (metadatas : List (List (List Char × List Char)))
    (documents : List (List Char)) : Except (List Char) ChromaCollection :=
  if ids.length = embeddings.length ∧ ids.length = metadatas.length ∧
      ids.length = documents.length then
    .ok ⟨col.records ++ (ids.zip (embeddings.zip (metadatas.zip documents))).map
      (fun p => ⟨p.1, p.2.1, p.2.2.1, p.2.2.2⟩)⟩
  else .error (S "ArityMismatch")

/-- `add_tdrs_batch`: a direct pass-through to the store's `add`. -/
def addTdrsBatch (col : ChromaCollection) (ids : List (List Char))
    (embeddings : List (List ℚ)) (metadatas : List (List (List Char × List Char)))
    (documents : List (List Char)) : Except (List Char) ChromaCollection :=
  collectionAdd col ids embeddings metadatas documents

/-! ### `EmbeddingService.create_tdr_text` (`backend/app/services/embeddings.py` lines 38-79)

Python `str()` of a nested list or dict is modelled by the JSON
serialization; the repository stores scalar values in the positions
where `str()` is applied. -/

/-- The priority-ordered embedding keys (lines 48-60). -/
def priorityFields : List (List Char) :=
  [S "objeto_contratacion",
   S "denominacion_servicio",
   S "denominacionContratacion",
   S "finalidad_publica",
   S "finalidadPublica",
   S "alcance",
   S "alcanceDescripcionServicio",
   S "servicios_requeridos",
   S "requisitos_tecnicos_minimos",
   S "perfil_profesional",
   S "entregables"]

/-- `" | ".join(...)`. -/
def pipeJoin (l : List (List Char)) : List Char := List.intercalate (S " | ") l

/-- `item.values()` of a JSON object. -/
def objValues : Json → List Json
  | .obj kvs => kvs.map (fun kv => kv.2)
  | _ => []

/-- Python `field in fields` / `fields[field]` on the field mapping. -/
def lookupField (fields : List (List Char × Json)) (k : List Char) : Option Json :=
  (fields.find? (fun kv => kv.1 = k)).map (fun kv => kv.2)

/-- The value-flattening of lines 64-75.  A list whose first element is
an object flattens to the pipe-joined truthy values of its first 3
elements — and raises `AttributeError` (`none`) if one of those
elements is not an object. -/
def flattenValue (v : Json) : Option (List Char) :=
  match v with
  | .arr [] => some (pipeJoin [])
  | .arr (x :: xs) =>
    match x with
    | .obj _ =>
      let items := (x :: xs).take 3
      if items.all Json.isObj then
        some (pipeJoin ((items.flatMap objValues).filterMap
          (fun w => if w.truthy then some (Json.pyStr w) else none)))
      else none
    | _ => some (pipeJoin (((x :: xs).take 5).map Json.pyStr))
  | .obj kvs =>
    some (pipeJoin ((kvs.take 5).map (fun kv => kv.1 ++ S ": " ++ Json.pyStr kv.2)))
  | other => some (Json.pyStr other)

/-- One priority field of the loop at lines 62-77: skipped when absent
or falsy (`some none`), rendered when present and truthy, `none` when
the flattening raises. -/
def renderPriorityField (fields : List (List Char × Json)) (field : List Char) :
    Option (Option (List Char)) :=
  match lookupField fields field with
  | none => some none
  | some v =>
    if v.truthy then
      match flattenValue v with
      | none => none
      | some s => some (some (field ++ S ": " ++ s))
    else some none

/-- `EmbeddingService.create_tdr_text`: `"Tipo: {tipo}"` followed by the
rendered present, truthy priority fields, newline-joined. -/
def createTdrText (fields : List (List Char × Json)) (tipo : List Char) :
    Option (List Char) :=
  match priorityFields.mapM (renderPriorityField fields) with
  | none => none
  | some opts =>
    some (List.intercalate ['\n'] ((S "Tipo: " ++ tipo) :: opts.reduceOption))


/-! ### The claims -/

/-- C3: the similarity assigned to every search result is computed from
its distance d as 1/(1+d); for d1 < d2 (with d1 ≥ 0) the similarity of
d1 is strictly greater; similarity equals 1 exactly when d = 0; and it
is never negative and never exceeds 1. -/
theorem C3_similarity_transform :
    (∀ d : ℚ, similarityOfDistance d = 1 / (1 + d)) ∧
    (∀ d1 d2 : ℚ, 0 ≤ d1 → d1 < d2 →
      similarityOfDistance d2 < similarityOfDistance d1) ∧
    similarityOfDistance 0 = 1 ∧
    (∀ d : ℚ, 0 ≤ d → 0 < similarityOfDistance d ∧ similarityOfDistance d ≤ 1) ∧
    (∀ d : ℚ, 0 ≤ d → (similarityOfDistance d = 1 ↔ d = 0)) := by
  refine ⟨fun d => rfl, ?_, by norm_num [similarityOfDistance], ?_, ?_⟩
  · intro d1 d2 h0 hlt
    unfold similarityOfDistance
    have h1 : (0 : ℚ) < 1 + d1 := by linarith
    have h2 : (0 : ℚ) < 1 + d2 := by linarith
    rw [div_lt_div_iff h2 h1]
    linarith
  · intro d h0
    unfold similarityOfDistance
    have h1 : (0 : ℚ) < 1 + d := by linarith
    constructor
    · positivity
    · rw [div_le_one h1]
      linarith
  · intro d h0
    unfold similarityOfDistance
    have h1 : (0 : ℚ) < 1 + d := by linarith
    constructor
    · intro h
      rw [div_eq_one_iff_eq (ne_of_gt h1)] at h
      linarith
    · rintro rfl
      norm_num

/-- Witness for C3 at concrete distances 0, 1 and 2. -/
theorem C3_similarity_transform_witness :
    similarityOfDistance 2 < similarityOfDistance 1 ∧
    0 < similarityOfDistance 1 ∧ similarityOfDistance 1 ≤ 1 ∧
    (similarityOfDistance 1 = 1 ↔ (1 : ℚ) = 0) :=
  ⟨C3_similarity_transform.2.1 1 2 (by decide) (by decide),
   (C3_similarity_transform.2.2.2.1 1 (by decide)).1,
   (C3_similarity_transform.2.2.2.1 1 (by decide)).2,
   C3_similarity_transform.2.2.2.2 1 (by decide)⟩

/-- C10: on valid JSON that is not an object — here the serialization
of an array — the response parser returns the value unchanged, so the
result is not a string-keyed mapping despite the declared `dict`
return type. -/
theorem C10_non_object_result :
    parseJsonResponse (S "[1, 2]") = Json.arr [Json.num 1, Json.num 2] ∧
    (Json.arr [Json.num 1, Json.num 2]).isObj = false :=
  ⟨rfl, rfl⟩

/-- C8: a batch upsert whose four sequences do not all share one length
fails with an arity error and stores nothing; with equal lengths the
whole batch is appended (never truncated). -/
theorem C8_batch_arity :
    (∀ col ids embeddings metadatas documents,
      ¬(ids.length = embeddings.length ∧ ids.length = metadatas.length ∧
        ids.length = documents.length) →
      addTdrsBatch col ids embeddings metadatas documents = .error (S "ArityMismatch")) ∧
    (∀ col ids embeddings metadatas documents,
      ids.length = embeddings.length → ids.length = metadatas.length →
      ids.length = documents.length →
      ∃ col2, addTdrsBatch col ids embeddings metadatas documents = .ok col2 ∧
        col2.records.length = col.records.length + ids.length) := by
  constructor
  · intro col ids es ms ds h
    simp [addTdrsBatch, collectionAdd, h]
  · intro col ids es ms ds h1 h2 h3
    refine ⟨⟨col.records ++ (ids.zip (es.zip (ms.zip ds))).map
      (fun p => ⟨p.1, p.2.1, p.2.2.1, p.2.2.2⟩)⟩, ?_, ?_⟩
    · simp only [addTdrsBatch, collectionAdd]
      rw [if_pos ⟨h1, h2, h3⟩]
    · simp [List.length_zip]
      omega

/-- Witness for C8: a mismatched batch of 2 ids and 1 embedding errors;
a matched batch of one record is stored in full. -/
theorem C8_batch_arity_witness :
    addTdrsBatch ⟨[]⟩ [S "a", S "b"] [[1]] [[]] [[]] = .error (S "ArityMismatch") ∧
    ∃ col2, addTdrsBatch ⟨[]⟩ [S "a"] [[1]] [[]] [S "doc"] = .ok col2 ∧
      col2.records.length = (⟨[]⟩ : ChromaCollection).records.length + 1 :=
  ⟨C8_batch_arity.1 ⟨[]⟩ [S "a", S "b"] [[1]] [[]] [[]] (by decide),
   C8_batch_arity.2 ⟨[]⟩ [S "a"] [[1]] [[]] [S "doc"] (by decide) (by decide) (by decide)⟩


theorem mapM_some_of_forall {α β : Type} (f : α → Option β) (l : List α)
    (h : ∀ x ∈ l, ∃ y, f x = some y) : ∃ out, l.mapM f = some out := by
  induction l with
  | nil => exact ⟨[], rfl⟩
  | cons x xs ih =>
    obtain ⟨y, hy⟩ := h x (by simp)
    obtain ⟨out, hout⟩ := ih (fun z hz => h z (by simp [hz]))
    exact ⟨y :: out, by rw [List.mapM_cons, hy, hout]; rfl⟩

theorem mapM_mem {α β : Type} {f : α → Option β} {l : List α} {out : List β}
    (h : l.mapM f = some out) : ∀ y ∈ out, ∃ x ∈ l, f x = some y := by
  induction l generalizing out with
  | nil =>
    simp only [List.mapM_nil, Option.pure_def, Option.some.injEq] at h
    subst h
    simp
  | cons x xs ih =>
    rw [List.mapM_cons] at h
    cases hx : f x with
    | none => rw [hx] at h; simp at h
    | some y0 =>
      rw [hx] at h
      cases hxs : xs.mapM f with
      | none => rw [hxs] at h; simp at h
      | some out0 =>
        rw [hxs] at h
        simp only [Option.pure_def, Option.bind_eq_bind, Option.some_bind,
          Option.some.injEq] at h
        subst h
        intro y hy
        rcases hy with _ | hy
        · exact ⟨x, by simp, hx⟩
        · obtain ⟨z, hz, hfz⟩ := ih hxs y (by assumption)
          exact ⟨z, by simp [hz], hfz⟩

/-- C9: a record without a `tipo` key is reported as SERVICIO; a record
whose `fields_json` is absent or unparseable gets empty fields; and the
search over such records still returns normally. -/
theorem C9_metadata_tolerance (r : RawQueryRecord) (recs1 recs2 : List RawQueryRecord)
    (htipo : metaGet r.metadata (S "tipo") = none)
    (hfj : metaGet r.metadata (S "fields_json") = none ∨
      ∃ s, metaGet r.metadata (S "fields_json") = some s ∧ jsonLoads s = none)
    (hothers : ∀ q ∈ recs1 ++ recs2, ∃ res, buildSearchResult q = some res) :
    ∃ res, buildSearchResult r = some res ∧ res.tipo = TdrTipo.SERVICIO ∧ res.fields = [] ∧
      ∃ out, chromaSearch (recs1 ++ r :: recs2) = some out := by
  have htv : tdrTipoOfString ((metaGet r.metadata (S "tipo")).getD (S "SERVICIO")) =
      some TdrTipo.SERVICIO := by
    rw [htipo]
    rfl
  have hfv : fieldsFromMetadata r.metadata = some [] := by
    unfold fieldsFromMetadata
    rcases hfj with h | ⟨s, hs, hl⟩
    · rw [h]
    · rw [hs]
      simp [hl]
  have hres : buildSearchResult r = some
      { id := r.id
        filename := (metaGet r.metadata (S "filename")).getD []
        tipo := TdrTipo.SERVICIO
        similarity := similarityOfDistance r.distance
        fields := [] } := by
    unfold buildSearchResult
    rw [htv, hfv]
  refine ⟨_, hres, rfl, rfl, ?_⟩
  refine mapM_some_of_forall _ _ ?_
  intro q hq
  rcases List.mem_append.mp hq with h | h
  · exact hothers q (by simp [h])
  · rcases h with _ | h
    · exact ⟨_, hres⟩
    · exact hothers q (by simp; right; assumption)

/-- Witness for C9: one record lacking both keys, between two normal
records. -/
theorem C9_metadata_tolerance_witness :
    ∃ res, buildSearchResult ⟨S "r", [], 1⟩ = some res ∧ res.tipo = TdrTipo.SERVICIO ∧
      res.fields = [] ∧
      ∃ out, chromaSearch ([⟨S "q1", [(S "tipo", S "BIEN")], 0⟩] ++
        ⟨S "r", [], 1⟩ :: [⟨S "q2", [(S "tipo", S "OBRA")], 2⟩]) = some out := by
  refine C9_metadata_tolerance ⟨S "r", [], 1⟩
    [⟨S "q1", [(S "tipo", S "BIEN")], 0⟩] [⟨S "q2", [(S "tipo", S "OBRA")], 2⟩]
    (by rfl) (Or.inl (by rfl)) ?_
  intro q hq
  simp only [List.mem_append, List.mem_singleton] at hq
  rcases hq with rfl | rfl
  · exact ⟨_, rfl⟩
  · exact ⟨_, rfl⟩


set_option maxRecDepth 100000 in
/-- The fixed text of the no-context template is shorter than the fixed
text of the with-context template. -/
theorem noContext_template_shorter :
    (S "Genera campos para un TDR de tipo \"").length + (S "\" con la siguiente información:\n- Descripción: ").length + (S "\n- Objeto: ").length + (S "\n\nResponde con un JSON de campos típicos para este tipo de TDR.").length <
      (S "Eres un experto en contrataciones públicas del estado peruano.\n\nTu tarea es generar TODOS los campos para un nuevo TDR (Términos de Referencia) de tipo \"").length + (S "\".\n\nCONTEXTO - TDRs similares como referencia:\n").length + (S "\n\nINFORMACIÓN DEL NUEVO TDR:\n- Tipo: ").length + (S "\n- Descripción inicial: ").length + (S "\n- Objeto de contratación: ").length + (S "\n- Campos ya completados: ").length + (S "\n\nINSTRUCCIONES IMPORTANTES:\n1. GENERA TODOS los campos listados abajo - no dejes ninguno vacío\n2. Basándote en los TDRs de referencia, crea contenido coherente y profesional\n3. Usa lenguaje formal propio de documentos gubernamentales peruanos\n4. Para campos legales (anticorrupción, confidencialidad), usa textos estándar del estado peruano\n5. Adapta todo al contexto específico del objeto de contratación\n6. Sé específico y detallado, evita frases genéricas\n\nCAMPOS A GENERAR (todos obligatorios):\n\x7b\n").length + (S "\n\x7d\n\nTEXTOS ESTÁNDAR A USAR:\n- Para \"anticorrupcion_antisoborno\": \"El contratista declara y garantiza no haber ofrecido, negociado o efectuado cualquier pago, objeto de valor o cualquier dádiva en general a funcionarios públicos. Se compromete a conducirse en todo momento con honestidad, probidad, veracidad e integridad, así como no incurrir en prácticas de corrupción, soborno o cualquier tipo de acto contrario a la ética.\"\n- Para \"confidencialidad\": \"El contratista se obliga a mantener en reserva y confidencialidad la información a la que tenga acceso en razón del servicio contratado. Queda prohibido revelar, publicar, difundir o usar esta información sin autorización expresa de la Entidad, durante y después de la vigencia del contrato.\"\n\nResponde SOLO con el JSON válido, sin explicaciones ni markdown.").length := by
  decide

/-- C1: a generate call whose search returns no references takes the
no-context path: it composes the (strictly shorter) no-context prompt,
calls the generator exactly once, and returns confidence 0.3 with empty
references. -/
theorem C1_empty_search_no_context_path
    (search : List Char → TdrTipo → Nat → List TdrSearchResult)
    (gen : Nat → List Char → List Char) (k : Nat) (tipo : TdrTipo)
    (d o : Option (List Char)) (cp : Option (List (List Char × List Char))) (n : Nat)
    (hempty : search (buildQuery tipo d o cp) tipo n = []) :
    (generateFields search gen k tipo d o cp n).1.confidence = 3 / 10 ∧
    (generateFields search gen k tipo d o cp n).1.referencias_usadas = [] ∧
    (generateFields search gen k tipo d o cp n).1.campos_sugeridos =
      parseJsonResponse (gen k (noContextPrompt tipo d o)) ∧
    (generateFields search gen k tipo d o cp n).1.success = true ∧
    (generateFields search gen k tipo d o cp n).2 = k + 1 ∧
    (∀ contexto cp2, (noContextPrompt tipo d o).length <
      (geminiPrompt tipo contexto d o cp2).length) := by
  have hrun : generateFields search gen k tipo d o cp n =
      ({ success := true, tipo := tipo,
         campos_sugeridos := parseJsonResponse (gen k (noContextPrompt tipo d o)),
         referencias_usadas := [], confidence := 3 / 10 }, k + 1) := by
    simp [generateFields, hempty, generateWithoutContext]
  refine ⟨by rw [hrun], by rw [hrun], by rw [hrun], by rw [hrun], by rw [hrun], ?_⟩
  intro contexto cp2
  have hg := noContext_template_shorter
  simp only [noContextPrompt, geminiPrompt, List.length_append]
  omega

/-- Witness for C1 with an always-empty search. -/
theorem C1_empty_search_no_context_path_witness :
    (generateFields (fun _ _ _ => []) (fun _ _ => S "\x7b\x7d") 0 TdrTipo.SERVICIO
      none none none 5).1.confidence = 3 / 10 ∧
    (generateFields (fun _ _ _ => []) (fun _ _ => S "\x7b\x7d") 0 TdrTipo.SERVICIO
      none none none 5).1.referencias_usadas = [] ∧
    (generateFields (fun _ _ _ => []) (fun _ _ => S "\x7b\x7d") 0 TdrTipo.SERVICIO
      none none none 5).1.campos_sugeridos =
      parseJsonResponse ((fun _ _ => S "\x7b\x7d") 0
        (noContextPrompt TdrTipo.SERVICIO none none)) ∧
    (generateFields (fun _ _ _ => []) (fun _ _ => S "\x7b\x7d") 0 TdrTipo.SERVICIO
      none none none 5).1.success = true ∧
    (generateFields (fun _ _ _ => []) (fun _ _ => S "\x7b\x7d") 0 TdrTipo.SERVICIO
      none none none 5).2 = 0 + 1 ∧
    (∀ contexto cp2, (noContextPrompt TdrTipo.SERVICIO none none).length <
      (geminiPrompt TdrTipo.SERVICIO contexto none none cp2).length) :=
  C1_empty_search_no_context_path (fun _ _ _ => []) (fun _ _ => S "\x7b\x7d") 0
    TdrTipo.SERVICIO none none none 5 (by rfl)

/-- The similarity of a nonnegative distance lies in (0, 1]. -/
theorem similarity_bounds (d : ℚ) (h : 0 ≤ d) :
    0 < similarityOfDistance d ∧ similarityOfDistance d ≤ 1 := by
  unfold similarityOfDistance
  have h1 : (0 : ℚ) < 1 + d := by linarith
  constructor
  · positivity
  · rw [div_le_one h1]
    linarith

theorem buildSearchResult_similarity (r : RawQueryRecord) (res : TdrSearchResult)
    (h : buildSearchResult r = some res) :
    res.similarity = similarityOfDistance r.distance := by
  unfold buildSearchResult at h
  rcases htv : tdrTipoOfString ((metaGet r.metadata (S "tipo")).getD (S "SERVICIO"))
    with _ | tipo
  · rw [htv] at h
    simp at h
  · rw [htv] at h
    rcases hfm : fieldsFromMetadata r.metadata with _ | fields
    · rw [hfm] at h
      simp at h
    · rw [hfm] at h
      simp only [Option.some.injEq] at h
      rw [← h]

/-- C2: when the search returns a non-empty reference list, the
returned confidence is the unweighted arithmetic mean of the
references' similarities, and lies in [0, 1]. -/
theorem C2_confidence_is_mean (records : List RawQueryRecord)
    (refs : List TdrSearchResult) (hsearch : chromaSearch records = some refs)
    (hd : ∀ r ∈ records, 0 ≤ r.distance) (hne : refs ≠ [])
    (gen : Nat → List Char → List Char) (k : Nat) (tipo : TdrTipo)
    (d o : Option (List Char)) (cp : Option (List (List Char × List Char))) (n : Nat) :
    (generateFields (fun _ _ _ => refs) gen k tipo d o cp n).1.confidence =
      (refs.map (fun r => r.similarity)).sum / (refs.length : ℚ) ∧
    0 ≤ (generateFields (fun _ _ _ => refs) gen k tipo d o cp n).1.confidence ∧
    (generateFields (fun _ _ _ => refs) gen k tipo d o cp n).1.confidence ≤ 1 := by
  have hie : refs.isEmpty = false := by
    cases refs with
    | nil => exact absurd rfl hne
    | cons a l => rfl
  have hmean : (generateFields (fun _ _ _ => refs) gen k tipo d o cp n).1.confidence =
      (refs.map (fun r => r.similarity)).sum / (refs.length : ℚ) := by
    simp [generateFields, hie, generateWithGemini]
  have hsims : ∀ s ∈ refs.map (fun r => r.similarity), 0 ≤ s ∧ s ≤ 1 := by
    intro s hs
    rw [List.mem_map] at hs
    obtain ⟨ref, href, rfl⟩ := hs
    obtain ⟨x, hx, hbx⟩ := mapM_mem hsearch ref href
    rw [buildSearchResult_similarity x ref hbx]
    have hb := similarity_bounds x.distance (hd x hx)
    exact ⟨hb.1.le, hb.2⟩
  have hlen : (0 : ℚ) < (refs.length : ℚ) := by
    have := List.length_pos.mpr hne
    exact_mod_cast this
  have h0 : 0 ≤ (refs.map (fun r => r.similarity)).sum :=
    List.sum_nonneg (fun x hx => (hsims x hx).1)
  have h1 : (refs.map (fun r => r.similarity)).sum ≤ (refs.length : ℚ) := by
    have := List.sum_le_card_nsmul (refs.map (fun r => r.similarity)) 1
      (fun x hx => (hsims x hx).2)
    simpa using this
  refine ⟨hmean, ?_, ?_⟩
  · rw [hmean]
    exact div_nonneg h0 hlen.le
  · rw [hmean]
    rw [div_le_one hlen]
    exact h1

/-- Witness for C2 with a single stored record at distance 1. -/
theorem C2_confidence_is_mean_witness :
    (generateFields (fun _ _ _ =>
        [⟨S "id1", [], TdrTipo.SERVICIO, similarityOfDistance 1, []⟩])
      (fun _ _ => S "\x7b\x7d") 0 TdrTipo.SERVICIO none none none 5).1.confidence =
      (([⟨S "id1", [], TdrTipo.SERVICIO, similarityOfDistance 1, []⟩] :
        List TdrSearchResult).map (fun r => r.similarity)).sum /
        (([⟨S "id1", [], TdrTipo.SERVICIO, similarityOfDistance 1, []⟩] :
          List TdrSearchResult).length : ℚ) ∧
    0 ≤ (generateFields (fun _ _ _ =>
        [⟨S "id1", [], TdrTipo.SERVICIO, similarityOfDistance 1, []⟩])
      (fun _ _ => S "\x7b\x7d") 0 TdrTipo.SERVICIO none none none 5).1.confidence ∧
    (generateFields (fun _ _ _ =>
        [⟨S "id1", [], TdrTipo.SERVICIO, similarityOfDistance 1, []⟩])
      (fun _ _ => S "\x7b\x7d") 0 TdrTipo.SERVICIO none none none 5).1.confidence ≤ 1 :=
  C2_confidence_is_mean [⟨S "id1", [], 1⟩]
    [⟨S "id1", [], TdrTipo.SERVICIO, similarityOfDistance 1, []⟩] (by rfl)
    (by intro r hr; simp at hr; rw [hr]; decide) (by simp)
    (fun _ _ => S "\x7b\x7d") 0 TdrTipo.SERVICIO none none none 5

/-- C5: on the with-context path the generator is called exactly once,
and when every parsing stage of its output fails the call still returns
success with the structured error payload as the suggested fields. -/
theorem C5_single_call_error_payload
    (search : List Char → TdrTipo → Nat → List TdrSearchResult)
    (gen : Nat → List Char → List Char) (k : Nat) (tipo : TdrTipo)
    (d o : Option (List Char)) (cp : Option (List (List Char × List Char))) (n : Nat)
    (hne : search (buildQuery tipo d o cp) tipo n ≠ [])
    (h1 : jsonLoads (preprocess (gen k (geminiPrompt tipo
      (buildContext (search (buildQuery tipo d o cp) tipo n)) d o cp))) = none)
    (h2 : ∀ span, braceSpan (preprocess (gen k (geminiPrompt tipo
      (buildContext (search (buildQuery tipo d o cp) tipo n)) d o cp))) = some span →
      jsonLoads span = none) :
    (generateFields search gen k tipo d o cp n).2 = k + 1 ∧
    (generateFields search gen k tipo d o cp n).1.success = true ∧
    (generateFields search gen k tipo d o cp n).1.campos_sugeridos =
      errorPayload (preprocess (gen k (geminiPrompt tipo
        (buildContext (search (buildQuery tipo d o cp) tipo n)) d o cp))) := by
  have hie : (search (buildQuery tipo d o cp) tipo n).isEmpty = false := by
    cases he : search (buildQuery tipo d o cp) tipo n with
    | nil => exact absurd he hne
    | cons a l => rfl
  have hparse := parseJsonResponse_unparseable _ h1 h2
  refine ⟨?_, ?_, ?_⟩ <;>
    simp [generateFields, hie, generateWithGemini, hparse]

/-- Witness for C5: a single-reference search and a generator that
returns unparseable text. -/
theorem C5_single_call_error_payload_witness :
    (generateFields (fun _ _ _ => [⟨S "id1", [], TdrTipo.SERVICIO, 1, []⟩])
      (fun _ _ => S "xyz") 0 TdrTipo.SERVICIO none none none 5).2 = 0 + 1 ∧
    (generateFields (fun _ _ _ => [⟨S "id1", [], TdrTipo.SERVICIO, 1, []⟩])
      (fun _ _ => S "xyz") 0 TdrTipo.SERVICIO none none none 5).1.success = true ∧
    (generateFields (fun _ _ _ => [⟨S "id1", [], TdrTipo.SERVICIO, 1, []⟩])
      (fun _ _ => S "xyz") 0 TdrTipo.SERVICIO none none none 5).1.campos_sugeridos =
      errorPayload (preprocess ((fun _ _ => S "xyz") 0 (geminiPrompt TdrTipo.SERVICIO
        (buildContext ((fun (_ : List Char) (_ : TdrTipo) (_ : Nat) =>
          [(⟨S "id1", [], TdrTipo.SERVICIO, 1, []⟩ : TdrSearchResult)])
            (buildQuery TdrTipo.SERVICIO none none none) TdrTipo.SERVICIO 5))
        none none none))) :=
  C5_single_call_error_payload (fun _ _ _ => [⟨S "id1", [], TdrTipo.SERVICIO, 1, []⟩])
    (fun _ _ => S "xyz") 0 TdrTipo.SERVICIO none none none 5
    (by simp) (by rfl)
    (by intro span h
        rw [show braceSpan (preprocess (S "xyz")) = none from by decide] at h
        cases h)


/-- C6: the context builder renders the empty reference list to the
empty string; each reference becomes a block headed by its 1-based rank
and 2-decimal similarity; at most 15 fields are included per reference;
and every rendered field value is at most 500 characters long. -/
theorem C6_context_builder_bounds :
    buildContext [] = [] ∧
    (∀ refs, buildContext refs = List.intercalate ['\n']
      (((List.enumFrom 1 refs).map (fun p => refBlock p.1 p.2)).flatten)) ∧
    (∀ i ref, (refBlock i ref).head? = some (S "=== REFERENCIA " ++ natToChars i ++
      S " (Similaridad: " ++ fmt2f ref.similarity ++ S ") ===")) ∧
    (∀ fields, (fieldLines fields).length ≤ 15) ∧
    (∀ fields line, line ∈ fieldLines fields → ∃ k v, (k, v) ∈ fields.take 15 ∧
      v.truthy = true ∧ line = S "  " ++ k ++ S ": " ++ renderValue v ∧
      (renderValue v).length ≤ 500) := by
  refine ⟨rfl, fun refs => rfl, fun i ref => rfl, ?_, ?_⟩
  · intro fields
    calc (fieldLines fields).length
        ≤ (fields.take 15).length := List.length_filterMap_le _ _
      _ ≤ 15 := List.length_take_le _ _
  · intro fields line hline
    unfold fieldLines at hline
    rw [List.mem_filterMap] at hline
    obtain ⟨⟨k, v⟩, hmem, hkv⟩ := hline
    by_cases ht : v.truthy
    · rw [if_pos ht] at hkv
      simp only [Option.some.injEq] at hkv
      refine ⟨k, v, hmem, ht, hkv.symm, ?_⟩
      unfold renderValue
      cases v <;> exact List.length_take_le _ _
    · rw [if_neg ht] at hkv
      cases hkv

set_option maxRecDepth 100000 in
/-- Witness for C6 at a one-field reference with a long value. -/
theorem C6_context_builder_bounds_witness :
    (S "  " ++ S "k" ++ S ": " ++
        renderValue (Json.str (List.replicate 600 'a'))) ∈
      fieldLines [(S "k", Json.str (List.replicate 600 'a'))] ∧
    ∃ k v, (k, v) ∈ ([(S "k", Json.str (List.replicate 600 'a'))] :
        List (List Char × Json)).take 15 ∧ v.truthy = true ∧
      (S "  " ++ S "k" ++ S ": " ++ renderValue (Json.str (List.replicate 600 'a'))) =
        S "  " ++ k ++ S ": " ++ renderValue v ∧ (renderValue v).length ≤ 500 := by
  constructor
  · decide
  · exact C6_context_builder_bounds.2.2.2.2
      [(S "k", Json.str (List.replicate 600 'a'))] _ (by decide)


/-- C4 (amended): the response parser recovers a serialized object
directly, fenced with or without a language tag, or embedded in
brace-free prose; when every stage fails it never raises and returns an
error payload whose `raw` field holds the first 500 characters of the
stripped, fence-removed input. -/
theorem C4_parser_stages :
    (∀ kvs, parseJsonResponse (Json.ser (Json.obj kvs)) = Json.obj kvs) ∧
    (∀ kvs, parseJsonResponse
      (S "```json" ++ '\n' :: Json.ser (Json.obj kvs) ++ '\n' :: S "```") =
      Json.obj kvs) ∧
    (∀ kvs, parseJsonResponse
      (S "```" ++ '\n' :: Json.ser (Json.obj kvs) ++ '\n' :: S "```") =
      Json.obj kvs) ∧
    (∀ kvs p t, '\x7b' ∉ p → '\x60' ∉ p → '\x7d' ∉ t → '\x60' ∉ t →
      jsonLoads (preprocess (p ++ Json.ser (Json.obj kvs) ++ t)) = none →
      parseJsonResponse (p ++ Json.ser (Json.obj kvs) ++ t) = Json.obj kvs) ∧
    (∀ cs, jsonLoads (preprocess cs) = none →
      (∀ span, braceSpan (preprocess cs) = some span → jsonLoads span = none) →
      parseJsonResponse cs = errorPayload (preprocess cs)) :=
  ⟨parseJsonResponse_direct, parseJsonResponse_fenced_json, parseJsonResponse_fenced_plain,
   parseJsonResponse_prose, parseJsonResponse_unparseable⟩

/-- The string value under the `raw` key of a parser result. -/
def rawStringField (j : Json) : Option (List Char) :=
  match j with
  | .obj kvs =>
    match (kvs.find? (fun kv => kv.1 = S "raw")).map (fun kv => kv.2) with
    | some (Json.str s) => some s
    | _ => none
  | _ => none

/-- Counterexample to C4 as stated: on the garbage input `" x"` the
`raw` field holds the stripped text `"x"`, not the first 500 characters
of the input `" x"`. -/
theorem C4_raw_counterexample :
    rawStringField (parseJsonResponse (S " x")) = some (S "x") ∧
    rawStringField (parseJsonResponse (S " x")) ≠ some ((S " x").take 500) := by
  constructor
  · rfl
  · have hne : some (S "x") ≠ some ((S " x").take 500) := by decide
    rw [show rawStringField (parseJsonResponse (S " x")) = some (S "x") from rfl]
    exact hne

/-- Witness for C4 on a prose-wrapped object and on garbage. -/
theorem C4_parser_stages_witness :
    parseJsonResponse (S "Nota: " ++ Json.ser (Json.obj [(S "a", Json.bool true)]) ++
      S " fin") = Json.obj [(S "a", Json.bool true)] ∧
    parseJsonResponse (S "zzz") = errorPayload (preprocess (S "zzz")) := by
  constructor
  · exact C4_parser_stages.2.2.2.1 [(S "a", Json.bool true)] (S "Nota: ") (S " fin")
      (by decide) (by decide) (by decide) (by decide) (by rfl)
  · refine C4_parser_stages.2.2.2.2 (S "zzz") (by rfl) ?_
    intro span h
    rw [show braceSpan (preprocess (S "zzz")) = none from by decide] at h
    cases h

/-! ### C7: `create_tdr_text` -/

/-- Modelled from the claim's words: the flattening as stated, without
the truthiness filter on a list of objects ("the pipe-joined values of
its first 3 objects"). -/
def flattenValueClaimed (v : Json) : Option (List Char) :=
  match v with
  | .arr [] => some (pipeJoin [])
  | .arr (x :: xs) =>
    match x with
    | .obj _ =>
      let items := (x :: xs).take 3
      if items.all Json.isObj then
        some (pipeJoin ((items.flatMap objValues).map Json.pyStr))
      else none
    | _ => some (pipeJoin (((x :: xs).take 5).map Json.pyStr))
  | .obj kvs =>
    some (pipeJoin ((kvs.take 5).map (fun kv => kv.1 ++ S ": " ++ Json.pyStr kv.2)))
  | other => some (Json.pyStr other)

/-- Modelled from the claim's words: one priority field under the
claimed flattening. -/
def renderPriorityFieldClaimed (fields : List (List Char × Json)) (field : List Char) :
    Option (Option (List Char)) :=
  match lookupField fields field with
  | none => some none
  | some v =>
    if v.truthy then
      match flattenValueClaimed v with
      | none => none
      | some s => some (some (field ++ S ": " ++ s))
    else some none

/-- Modelled from the claim's words: the canonicalization as the claim
states it. -/
def createTdrTextClaimed (fields : List (List Char × Json)) (tipo : List Char) :
    Option (List Char) :=
  match priorityFields.mapM (renderPriorityFieldClaimed fields) with
  | none => none
  | some opts =>
    some (List.intercalate ['\n'] ((S "Tipo: " ++ tipo) :: opts.reduceOption))

/-- Counterexample to C7 as stated: a falsy inner value of a
list-of-objects field is dropped by the code but kept by the claimed
flattening. -/
theorem C7_flatten_counterexample :
    createTdrText [(S "objeto_contratacion",
        Json.arr [Json.obj [(S "a", Json.str []), (S "b", Json.str (S "x"))]])]
      (S "SERVICIO") ≠
    createTdrTextClaimed [(S "objeto_contratacion",
        Json.arr [Json.obj [(S "a", Json.str []), (S "b", Json.str (S "x"))]])]
      (S "SERVICIO") := by
  decide

/-- The specification-side rendering of one priority field: absent or
falsy keys give nothing, present truthy keys give `key: value` under
the (amended) flattening. -/
def specFieldLine (fields : List (List Char × Json)) (field : List Char) :
    Option (List Char) :=
  match lookupField fields field with
  | none => none
  | some v =>
    if v.truthy then (flattenValue v).map (fun s => field ++ S ": " ++ s) else none

theorem renderPriorityField_spec (fields : List (List Char × Json)) (field : List Char)
    (o : Option (List Char)) (h : renderPriorityField fields field = some o) :
    o = specFieldLine fields field := by
  unfold renderPriorityField at h
  unfold specFieldLine
  cases hl : lookupField fields field with
  | none =>
    rw [hl] at h
    simp at h
    simp [h]
  | some v =>
    rw [hl] at h
    by_cases ht : v.truthy
    · cases hf : flattenValue v with
      | none => simp [ht, hf] at h
      | some s =>
        simp [ht, hf] at h
        simp [ht, hf, h]
    · simp [ht] at h
      simp [ht, h]

theorem mapM_reduceOption_filterMap (fields : List (List Char × Json)) :
    ∀ (l : List (List Char)) (opts : List (Option (List Char))),
      l.mapM (renderPriorityField fields) = some opts →
      opts.reduceOption = l.filterMap (specFieldLine fields) := by
  intro l
  induction l with
  | nil =>
    intro opts h
    simp only [List.mapM_nil, Option.pure_def, Option.some.injEq] at h
    subst h
    rfl
  | cons x xs ih =>
    intro opts h
    rw [List.mapM_cons] at h
    cases hx : renderPriorityField fields x with
    | none => rw [hx] at h; simp at h
    | some o =>
      rw [hx] at h
      cases hxs : xs.mapM (renderPriorityField fields) with
      | none => rw [hxs] at h; simp at h
      | some out0 =>
        rw [hxs] at h
        simp only [Option.pure_def, Option.bind_eq_bind, Option.some_bind,
          Option.map_some, Option.some.injEq] at h
        subst h
        rw [List.filterMap_cons, ← renderPriorityField_spec fields x o hx]
        cases o with
        | none => simpa [List.reduceOption] using ih out0 hxs
        | some s => simpa [List.reduceOption] using ih out0 hxs



theorem intercalate_cons_head (sep a : List Char) (l : List (List Char)) :
    ∃ r, List.intercalate sep (a :: l) = a ++ r := by
  cases l with
  | nil => exact ⟨[], by simp [List.intercalate]⟩
  | cons b bs =>
    exact ⟨sep ++ List.intercalate sep (b :: bs),
      by simp [List.intercalate, List.intersperse]⟩

/-- C7 (amended): whenever the canonicalization succeeds — it raises
when a list value headed by an object contains a non-object among its
first 3 elements — the output is the `Tipo:` prefix followed by each
present, truthy priority key rendered as `key: value`, newline-joined,
with a list of objects flattened to the pipe-joined truthy values of
its first 3 objects. -/
theorem C7_canonicalization_amended (fields : List (List Char × Json))
    (tipo : List Char) (s : List Char) (h : createTdrText fields tipo = some s) :
    s = List.intercalate ['\n'] ((S "Tipo: " ++ tipo) ::
      priorityFields.filterMap (specFieldLine fields)) ∧
    ∃ r, s = (S "Tipo: " ++ tipo) ++ r := by
  unfold createTdrText at h
  cases hm : priorityFields.mapM (renderPriorityField fields) with
  | none => rw [hm] at h; cases h
  | some opts =>
    rw [hm] at h
    simp only [Option.some.injEq] at h
    have hred := mapM_reduceOption_filterMap fields priorityFields opts hm
    constructor
    · rw [← h, hred]
    · rw [← h]
      exact intercalate_cons_head _ _ _

/-- Witness for C7 on a concrete field mapping. -/
theorem C7_canonicalization_amended_witness :
    S "Tipo: SERVICIO\nobjeto_contratacion: Limpieza" =
      List.intercalate ['\n'] ((S "Tipo: " ++ S "SERVICIO") ::
        priorityFields.filterMap
          (specFieldLine [(S "objeto_contratacion", Json.str (S "Limpieza"))])) ∧
    ∃ r, S "Tipo: SERVICIO\nobjeto_contratacion: Limpieza" =
      (S "Tipo: " ++ S "SERVICIO") ++ r :=
  C7_canonicalization_amended [(S "objeto_contratacion", Json.str (S "Limpieza"))]
    (S "SERVICIO") (S "Tipo: SERVICIO\nobjeto_contratacion: Limpieza") (by rfl)

end Asiter






